import Mathlib

/-!
Shallow embedding of the marketplace escrow and negotiation contract
(`contracts/marketplace/src/lib.rs`).

Modelling conventions:
* `Addr` stands for Soroban `Address`; the marketplace contract's own address
  (`env.current_contract_address()`) is the fixed constant `contract_addr`.
* Contract storage is a record of association lists (`assocGet`/`assocSet`
  mirror `storage.get`/`storage.set`); missing entries behave like
  `unwrap_or(default)` exactly where the source uses it.
* Every entry point is a function `MState -> args -> Option MState`:
  a Rust `panic!`/`expect` aborts the whole call, which we model as `none`
  (the surrounding ledger provides all-or-nothing atomicity, spec section 5).
* `require_auth()` calls are dropped: the caller argument is assumed to be an
  authenticated principal (spec section 1 delegates authentication).
* Calls out to the fungible-token collaborator are recorded in an append-only
  `token_transfers` ledger; calls to the NFT registry in `asset_transfers`.
  The registry's `owner_of` answer is passed in as the oracle argument
  `owner_of` of `create_listing`.
* Rust `i128` arithmetic inside `calculate_payouts` is modelled exactly:
  products and differences are range-checked against the i128 bounds
  (`checked_i128`), an out-of-range intermediate aborts the call, and `/` is
  truncating division (`Int.tdiv`), as in Rust.
* The per-call ledger timestamp `env.ledger().timestamp()` is the explicit
  argument `now` of the operations that read it.
-/

namespace Quest

set_option maxRecDepth 4000

abbrev Addr := Nat

/-- The marketplace contract's own address (`env.current_contract_address()`). -/
def contract_addr : Addr := 0

inductive AssetType
  | NFT
  | Item
  | Hint
deriving DecidableEq

structure Asset where
  asset_type : AssetType
  contract : Addr
  token_id : Nat
deriving DecidableEq

inductive ListingStatus
  | Active
  | Sold
  | Cancelled
deriving DecidableEq

structure Listing where
  listing_id : Nat
  seller : Addr
  asset : Asset
  payment_token : Addr
  price : Int
  status : ListingStatus
  created_time : Nat
  creator : Option Addr
  royalty_bps : Nat
deriving DecidableEq

inductive OfferStatus
  | Open
  | Accepted
  | Rejected
  | Cancelled
  | Countered
deriving DecidableEq

structure Offer where
  offer_id : Nat
  listing_id : Nat
  buyer : Addr
  price : Int
  status : OfferStatus
  created_time : Nat
  expiration_time : Option Nat
deriving DecidableEq

structure CounterOffer where
  counter_offer_id : Nat
  offer_id : Nat
  seller : Addr
  price : Int
  created_time : Nat
  expiration_time : Option Nat
deriving DecidableEq

structure MarketplaceConfig where
  admin : Addr
  fee_recipient : Addr
  fee_bps : Nat
  min_listing_duration : Nat
  max_listing_duration : Nat
deriving DecidableEq

/-- One `token_client.transfer(src, dst, amount)` call on the fungible-token
collaborator identified by `token`. -/
structure TokenTransfer where
  token : Addr
  src : Addr
  dst : Addr
  amount : Int
deriving DecidableEq

/-- One `transfer(src, dst, token_id)` call on the NFT registry `contract`. -/
structure AssetTransfer where
  contract : Addr
  token_id : Nat
  src : Addr
  dst : Addr
deriving DecidableEq

/-- First-match association-list lookup (storage `get`). -/
def assocGet {α β : Type} [DecidableEq α] : List (α × β) → α → Option β
  | [], _ => none
  | (k', v) :: rest, k => if k' = k then some v else assocGet rest k

/-- Association-list update (storage `set`): replaces the first binding of the
key, or appends a fresh binding. -/
def assocSet {α β : Type} [DecidableEq α] : List (α × β) → α → β → List (α × β)
  | [], k, v => [(k, v)]
  | (k', v') :: rest, k, v =>
    if k' = k then (k, v) :: rest else (k', v') :: assocSet rest k v

/-- The whole storage namespace of the marketplace contract, `DataKey` by
`DataKey`, plus the two outgoing-call ledgers. -/
structure MState where
  config : Option MarketplaceConfig
  listing_count : Nat
  offer_count : Nat
  counter_offer_count : Nat
  listings : List (Nat × Listing)
  offers : List (Nat × Offer)
  counter_offers : List (Nat × CounterOffer)
  offers_by_listing : List (Nat × List Nat)
  counter_offers_by_offer : List (Nat × List Nat)
  listings_by_seller : List (Addr × List Nat)
  listings_by_asset : List ((Addr × Nat) × List Nat)
  active_listings : List Nat
  price_history : List ((Addr × Nat) × List Int)
  token_transfers : List TokenTransfer
  asset_transfers : List AssetTransfer
deriving DecidableEq

/-- Storage before `initialize` has run: everything absent. -/
def empty_state : MState :=
  { config := none, listing_count := 0, offer_count := 0, counter_offer_count := 0,
    listings := [], offers := [], counter_offers := [], offers_by_listing := [],
    counter_offers_by_offer := [],
    listings_by_seller := [], listings_by_asset := [], active_listings := [],
    price_history := [], token_transfers := [], asset_transfers := [] }

def i128_min : Int := -(2 ^ 127)

def i128_max : Int := 2 ^ 127 - 1

/-- Checked Rust `i128` arithmetic: an intermediate value outside the i128
range aborts the call (overflow panic). -/
def checked_i128 (x : Int) : Option Int :=
  if i128_min ≤ x ∧ x ≤ i128_max then some x else none

/-- `MarketplaceContract::calculate_payouts`:
`fee = price * fee_bps / 10000`, `royalty = price * royalty_bps / 10000`
(truncating i128 division), `seller = price - fee - royalty`. -/
def calculate_payouts (price : Int) (fee_bps royalty_bps : Nat) :
    Option (Int × Int × Int) :=
  match checked_i128 (price * (fee_bps : Int)) with
  | none => none
  | some p1 =>
    let fee_amount := p1.tdiv 10000
    match checked_i128 (price * (royalty_bps : Int)) with
    | none => none
    | some p2 =>
      let royalty_amount := p2.tdiv 10000
      match checked_i128 (price - fee_amount) with
      | none => none
      | some d1 =>
        match checked_i128 (d1 - royalty_amount) with
        | none => none
        | some seller_amount => some (seller_amount, fee_amount, royalty_amount)

/-- `record_price_history`'s pure core: push the price, then keep only the
last 100 entries (truncate from the front). -/
def record_price_history (history : List Int) (price : Int) : List Int :=
  let h := history ++ [price]
  if h.length > 100 then h.drop (h.length - 100) else h

/-- `record_price_history` acting on storage. -/
def record_price_history_op (s : MState) (c : Addr) (tid : Nat) (price : Int) :
    MState :=
  let old := (assocGet s.price_history (c, tid)).getD []
  { s with price_history :=
      assocSet s.price_history (c, tid) (record_price_history old price) }

/-- `remove_from_active_listings`: delete the first occurrence of the id, if
present (`first_index_of` + `remove`). -/
def remove_from_active_listings (s : MState) (listing_id : Nat) : MState :=
  { s with active_listings := s.active_listings.erase listing_id }

/-- `expiration_time must be in the future` check of `create_offer` /
`create_counter_offer`: fails unless `now < t`. -/
def is_future (e : Option Nat) (now : Nat) : Bool :=
  match e with
  | none => true
  | some t => decide (now < t)

/-- `has expired` check of `accept_offer` / `accept_counter_offer`:
expired when `now > t`. -/
def is_expired (e : Option Nat) (now : Nat) : Bool :=
  match e with
  | none => false
  | some t => decide (t < now)

/-- `MarketplaceContract::initialize` (named `init_market` here). -/
def init_market (s : MState) (admin fee_recipient : Addr) (fee_bps : Nat)
    (min_listing_duration max_listing_duration : Nat) : Option MState :=
  if s.config.isSome then none
  else if fee_bps > 10000 then none
  else
    some { s with
      config := some { admin := admin, fee_recipient := fee_recipient,
                       fee_bps := fee_bps,
                       min_listing_duration := min_listing_duration,
                       max_listing_duration := max_listing_duration },
      listing_count := 0, offer_count := 0, counter_offer_count := 0 }

/-- `MarketplaceContract::update_config` (admin only; each `Some` field
overwrites). -/
def update_config (s : MState) (fee_recipient : Option Addr)
    (fee_bps : Option Nat) (min_d max_d : Option Nat) : Option MState :=
  match s.config with
  | none => none
  | some cfg =>
    let c1 := match fee_recipient with
      | some r => { cfg with fee_recipient := r }
      | none => cfg
    match fee_bps with
    | some b =>
      if b > 10000 then none
      else
        let c2 := { c1 with fee_bps := b }
        let c3 := match min_d with
          | some mn => { c2 with min_listing_duration := mn }
          | none => c2
        let c4 := match max_d with
          | some mx => { c3 with max_listing_duration := mx }
          | none => c3
        some { s with config := some c4 }
    | none =>
      let c3 := match min_d with
        | some mn => { c1 with min_listing_duration := mn }
        | none => c1
      let c4 := match max_d with
        | some mx => { c3 with max_listing_duration := mx }
        | none => c3
      some { s with config := some c4 }

/-- `MarketplaceContract::create_listing`. `owner_of` is the NFT registry's
answer to `owner_of(asset.token_id)`. -/
def create_listing (s : MState) (seller : Addr) (asset : Asset)
    (payment_token : Addr) (price : Int) (creator : Option Addr)
    (royalty_bps : Nat) (owner_of : Addr) (now : Nat) : Option (Nat × MState) :=
  if price ≤ 0 then none
  else if royalty_bps > 10000 then none
  else if owner_of ≠ seller then none
  else
    let s1 := { s with asset_transfers := s.asset_transfers ++
        ([{ contract := asset.contract, token_id := asset.token_id,
            src := seller, dst := contract_addr }] : List AssetTransfer) }
    let lid := s1.listing_count + 1
    let listing : Listing :=
      { listing_id := lid, seller := seller, asset := asset,
        payment_token := payment_token, price := price,
        status := ListingStatus.Active, created_time := now,
        creator := creator, royalty_bps := royalty_bps }
    some (lid, { s1 with
      listing_count := lid,
      listings := assocSet s1.listings lid listing,
      listings_by_seller := assocSet s1.listings_by_seller seller
        ((assocGet s1.listings_by_seller seller).getD [] ++ [lid]),
      listings_by_asset := assocSet s1.listings_by_asset
        (asset.contract, asset.token_id)
        ((assocGet s1.listings_by_asset (asset.contract, asset.token_id)).getD []
          ++ [lid]),
      active_listings := s1.active_listings ++ [lid] })

/-- The three distribution legs shared by every settlement path: the seller
leg is always emitted, the fee leg only when `fee_amount > 0`, and the royalty
leg only when `royalty_amount > 0` and a creator is recorded. -/
def payout_legs (tok seller_dst fee_recipient : Addr) (creator : Option Addr)
    (seller_amount fee_amount royalty_amount : Int) : List TokenTransfer :=
  [{ token := tok, src := contract_addr, dst := seller_dst,
     amount := seller_amount }] ++
  (if fee_amount > 0 then
    [{ token := tok, src := contract_addr, dst := fee_recipient,
       amount := fee_amount }]
   else []) ++
  (if royalty_amount > 0 then
    match creator with
    | some creator =>
      [{ token := tok, src := contract_addr, dst := creator,
         amount := royalty_amount }]
    | none => []
   else [])

/-- `MarketplaceContract::buy`. -/
def buy (s : MState) (buyer : Addr) (listing_id : Nat) : Option MState :=
  match assocGet s.listings listing_id with
  | none => none
  | some listing =>
    if listing.status ≠ ListingStatus.Active then none
    else if listing.seller = buyer then none
    else
      match s.config with
      | none => none
      | some config =>
        match calculate_payouts listing.price config.fee_bps listing.royalty_bps with
        | none => none
        | some (seller_amount, fee_amount, royalty_amount) =>
          let tok := listing.payment_token
          let legs : List TokenTransfer :=
            [{ token := tok, src := buyer, dst := contract_addr,
               amount := listing.price }] ++
            payout_legs tok listing.seller config.fee_recipient listing.creator
              seller_amount fee_amount royalty_amount
          let s1 := { s with
            token_transfers := s.token_transfers ++ legs,
            asset_transfers := s.asset_transfers ++
              ([{ contract := listing.asset.contract,
                  token_id := listing.asset.token_id,
                  src := contract_addr, dst := buyer }] : List AssetTransfer),
            listings := assocSet s.listings listing_id
              ({ listing with status := ListingStatus.Sold }) }
          let s2 := remove_from_active_listings s1 listing_id
          some (record_price_history_op s2 listing.asset.contract
            listing.asset.token_id listing.price)

/-- `MarketplaceContract::create_offer` (escrows `price` from the buyer). -/
def create_offer (s : MState) (buyer : Addr) (listing_id : Nat) (price : Int)
    (expiration_time : Option Nat) (now : Nat) : Option (Nat × MState) :=
  match assocGet s.listings listing_id with
  | none => none
  | some listing =>
    if listing.status ≠ ListingStatus.Active then none
    else if listing.seller = buyer then none
    else if price ≤ 0 then none
    else if ¬ is_future expiration_time now then none
    else
      let oid := s.offer_count + 1
      let offer : Offer :=
        { offer_id := oid, listing_id := listing_id, buyer := buyer,
          price := price, status := OfferStatus.Open, created_time := now,
          expiration_time := expiration_time }
      some (oid, { s with
        offer_count := oid,
        offers := assocSet s.offers oid offer,
        offers_by_listing := assocSet s.offers_by_listing listing_id
          ((assocGet s.offers_by_listing listing_id).getD [] ++ [oid]),
        token_transfers := s.token_transfers ++
          [{ token := listing.payment_token, src := buyer,
             dst := contract_addr, amount := price }] })

/-- One iteration of the bulk-refund loops: if the offer exists and is `Open`,
refund its full price to its buyer and mark it `Cancelled`. -/
def refund_offer_step (tok : Addr) (s : MState) (oid : Nat) : MState :=
  match assocGet s.offers oid with
  | none => s
  | some o =>
    if o.status = OfferStatus.Open then
      { s with
        token_transfers := s.token_transfers ++
          [{ token := tok, src := contract_addr, dst := o.buyer,
             amount := o.price }],
        offers := assocSet s.offers oid ({ o with status := OfferStatus.Cancelled }) }
    else s

/-- One loop iteration including the `skip` guard of `refund_other_offers`
(`refund_all_offers` never skips). -/
def refund_step (tok : Addr) (skip : Nat → Bool) (st : MState) (oid : Nat) :
    MState :=
  if skip oid then st else refund_offer_step tok st oid

/-- Common loop of `refund_all_offers` / `refund_other_offers`: walk the
listing's offer index, skipping ids selected by `skip`. -/
def refund_listing_offers (s : MState) (listing_id : Nat) (skip : Nat → Bool) :
    Option MState :=
  match assocGet s.listings listing_id with
  | none => none
  | some listing =>
    some (((assocGet s.offers_by_listing listing_id).getD []).foldl
      (refund_step listing.payment_token skip) s)

/-- `MarketplaceContract::refund_all_offers`. -/
def refund_all_offers (s : MState) (listing_id : Nat) : Option MState :=
  refund_listing_offers s listing_id (fun _ => false)

/-- `MarketplaceContract::refund_other_offers` (skips the accepted id). -/
def refund_other_offers (s : MState) (listing_id accepted : Nat) :
    Option MState :=
  refund_listing_offers s listing_id (fun oid => oid == accepted)

/-- `MarketplaceContract::accept_offer`. -/
def accept_offer (s : MState) (seller : Addr) (offer_id : Nat) (now : Nat) :
    Option MState :=
  match assocGet s.offers offer_id with
  | none => none
  | some offer =>
    if offer.status ≠ OfferStatus.Open then none
    else if is_expired offer.expiration_time now then none
    else
      match assocGet s.listings offer.listing_id with
      | none => none
      | some listing =>
        if listing.seller ≠ seller then none
        else if listing.status ≠ ListingStatus.Active then none
        else
          match s.config with
          | none => none
          | some config =>
            match calculate_payouts offer.price config.fee_bps listing.royalty_bps with
            | none => none
            | some (seller_amount, fee_amount, royalty_amount) =>
              let tok := listing.payment_token
              let legs : List TokenTransfer :=
                payout_legs tok seller config.fee_recipient listing.creator
                  seller_amount fee_amount royalty_amount
              let s1 := { s with
                token_transfers := s.token_transfers ++ legs,
                asset_transfers := s.asset_transfers ++
                  ([{ contract := listing.asset.contract,
                      token_id := listing.asset.token_id,
                      src := contract_addr, dst := offer.buyer }] : List AssetTransfer),
                offers := assocSet s.offers offer_id
                  ({ offer with status := OfferStatus.Accepted }),
                listings := assocSet s.listings offer.listing_id
                  ({ listing with status := ListingStatus.Sold }) }
              let s2 := remove_from_active_listings s1 offer.listing_id
              match refund_other_offers s2 offer.listing_id offer_id with
              | none => none
              | some s3 =>
                some (record_price_history_op s3 listing.asset.contract
                  listing.asset.token_id offer.price)

/-- `MarketplaceContract::reject_offer` (refunds the buyer in full). -/
def reject_offer (s : MState) (seller : Addr) (offer_id : Nat) : Option MState :=
  match assocGet s.offers offer_id with
  | none => none
  | some offer =>
    if offer.status ≠ OfferStatus.Open then none
    else
      match assocGet s.listings offer.listing_id with
      | none => none
      | some listing =>
        if listing.seller ≠ seller then none
        else
          some { s with
            token_transfers := s.token_transfers ++
              [{ token := listing.payment_token, src := contract_addr,
                 dst := offer.buyer, amount := offer.price }],
            offers := assocSet s.offers offer_id
              ({ offer with status := OfferStatus.Rejected }) }

/-- `MarketplaceContract::cancel_offer` (buyer cancels, full refund). -/
def cancel_offer (s : MState) (buyer : Addr) (offer_id : Nat) : Option MState :=
  match assocGet s.offers offer_id with
  | none => none
  | some offer =>
    if offer.buyer ≠ buyer then none
    else if offer.status ≠ OfferStatus.Open then none
    else
      match assocGet s.listings offer.listing_id with
      | none => none
      | some listing =>
        some { s with
          token_transfers := s.token_transfers ++
            [{ token := listing.payment_token, src := contract_addr,
               dst := buyer, amount := offer.price }],
          offers := assocSet s.offers offer_id
            ({ offer with status := OfferStatus.Cancelled }) }

/-- `MarketplaceContract::create_counter_offer` (marks the parent offer
`Countered`). -/
def create_counter_offer (s : MState) (seller : Addr) (offer_id : Nat)
    (price : Int) (expiration_time : Option Nat) (now : Nat) :
    Option (Nat × MState) :=
  match assocGet s.offers offer_id with
  | none => none
  | some offer =>
    if offer.status ≠ OfferStatus.Open then none
    else
      match assocGet s.listings offer.listing_id with
      | none => none
      | some listing =>
        if listing.seller ≠ seller then none
        else if price ≤ 0 then none
        else if ¬ is_future expiration_time now then none
        else
          let cid := s.counter_offer_count + 1
          let counter : CounterOffer :=
            { counter_offer_id := cid, offer_id := offer_id, seller := seller,
              price := price, created_time := now,
              expiration_time := expiration_time }
          some (cid, { s with
            counter_offer_count := cid,
            counter_offers := assocSet s.counter_offers cid counter,
            counter_offers_by_offer := assocSet s.counter_offers_by_offer offer_id
              ((assocGet s.counter_offers_by_offer offer_id).getD [] ++ [cid]),
            offers := assocSet s.offers offer_id
              ({ offer with status := OfferStatus.Countered }) })

/-- `MarketplaceContract::accept_counter_offer`. Note, as in the source: no
check of the parent offer's status and no check that the listing is still
Active; the refund is the full original escrow, and only a positive
`counter.price - offer.price` is charged. -/
def accept_counter_offer (s : MState) (buyer : Addr) (counter_offer_id : Nat)
    (now : Nat) : Option MState :=
  match assocGet s.counter_offers counter_offer_id with
  | none => none
  | some counter =>
    match assocGet s.offers counter.offer_id with
    | none => none
    | some offer =>
      if offer.buyer ≠ buyer then none
      else if is_expired counter.expiration_time now then none
      else
        match assocGet s.listings offer.listing_id with
        | none => none
        | some listing =>
          match s.config with
          | none => none
          | some config =>
            let tok := listing.payment_token
            let refund : List TokenTransfer :=
              [{ token := tok, src := contract_addr, dst := buyer,
                 amount := offer.price }]
            let price_difference := counter.price - offer.price
            let charge : List TokenTransfer :=
              if price_difference > 0 then
                [{ token := tok, src := buyer, dst := contract_addr,
                   amount := price_difference }]
              else []
            match calculate_payouts counter.price config.fee_bps listing.royalty_bps with
            | none => none
            | some (seller_amount, fee_amount, royalty_amount) =>
              let legs : List TokenTransfer :=
                payout_legs tok counter.seller config.fee_recipient
                  listing.creator seller_amount fee_amount royalty_amount
              let s1 := { s with
                token_transfers := s.token_transfers ++ refund ++ charge ++ legs,
                asset_transfers := s.asset_transfers ++
                  ([{ contract := listing.asset.contract,
                      token_id := listing.asset.token_id,
                      src := contract_addr, dst := buyer }] : List AssetTransfer),
                offers := assocSet s.offers counter.offer_id
                  ({ offer with status := OfferStatus.Accepted }),
                listings := assocSet s.listings offer.listing_id
                  ({ listing with status := ListingStatus.Sold }) }
              let s2 := remove_from_active_listings s1 offer.listing_id
              match refund_other_offers s2 offer.listing_id counter.offer_id with
              | none => none
              | some s3 =>
                some (record_price_history_op s3 listing.asset.contract
                  listing.asset.token_id counter.price)

/-- `MarketplaceContract::cancel_listing`. -/
def cancel_listing (s : MState) (seller : Addr) (listing_id : Nat) :
    Option MState :=
  match assocGet s.listings listing_id with
  | none => none
  | some listing =>
    if listing.seller ≠ seller then none
    else if listing.status ≠ ListingStatus.Active then none
    else
      let s1 := { s with asset_transfers := s.asset_transfers ++
          ([{ contract := listing.asset.contract,
              token_id := listing.asset.token_id,
              src := contract_addr, dst := seller }] : List AssetTransfer) }
      match refund_all_offers s1 listing_id with
      | none => none
      | some s2 =>
        let cancelled := assocSet s2.listings listing_id
          ({ listing with status := ListingStatus.Cancelled })
        let s3 := { s2 with listings := cancelled }
        some (remove_from_active_listings s3 listing_id)

/-- One public mutating entry point together with its arguments and the
ambient inputs (ledger timestamp, registry answer) of that call. -/
inductive Action
  | init_market (admin fee_recipient : Addr) (fee_bps min_d max_d : Nat)
  | update_config (fee_recipient : Option Addr) (fee_bps : Option Nat)
      (min_d max_d : Option Nat)
  | create_listing (seller : Addr) (asset : Asset) (payment_token : Addr)
      (price : Int) (creator : Option Addr) (royalty_bps : Nat)
      (owner_of : Addr) (now : Nat)
  | buy (buyer : Addr) (listing_id : Nat)
  | create_offer (buyer : Addr) (listing_id : Nat) (price : Int)
      (expiration_time : Option Nat) (now : Nat)
  | accept_offer (seller : Addr) (offer_id : Nat) (now : Nat)
  | reject_offer (seller : Addr) (offer_id : Nat)
  | cancel_offer (buyer : Addr) (offer_id : Nat)
  | create_counter_offer (seller : Addr) (offer_id : Nat) (price : Int)
      (expiration_time : Option Nat) (now : Nat)
  | accept_counter_offer (buyer : Addr) (counter_offer_id : Nat) (now : Nat)
  | cancel_listing (seller : Addr) (listing_id : Nat)
deriving DecidableEq

/-- Run one entry point against the store. -/
def apply (s : MState) : Action → Option MState
  | Action.init_market a fr fb mn mx => init_market s a fr fb mn mx
  | Action.update_config fr fb mn mx => update_config s fr fb mn mx
  | Action.create_listing seller asset pt price creator roy owner now =>
    (create_listing s seller asset pt price creator roy owner now).map (·.2)
  | Action.buy buyer lid => buy s buyer lid
  | Action.create_offer buyer lid price e now =>
    (create_offer s buyer lid price e now).map (·.2)
  | Action.accept_offer seller oid now => accept_offer s seller oid now
  | Action.reject_offer seller oid => reject_offer s seller oid
  | Action.cancel_offer buyer oid => cancel_offer s buyer oid
  | Action.create_counter_offer seller oid price e now =>
    (create_counter_offer s seller oid price e now).map (·.2)
  | Action.accept_counter_offer buyer cid now =>
    accept_counter_offer s buyer cid now
  | Action.cancel_listing seller lid => cancel_listing s seller lid

/-- Run a sequence of entry points. -/
def apply_trace (s : MState) : List Action → Option MState
  | [] => some s
  | a :: rest =>
    match apply s a with
    | none => none
    | some s' => apply_trace s' rest

/-- States reachable from the un-initialized store by successful entry-point
calls. -/
inductive Reachable : MState → Prop
  | empty : Reachable empty_state
  | step {s a s'} : Reachable s → apply s a = some s' → Reachable s'

/-- Net amount flowing *into* address `a` across a transfer ledger
(incoming minus outgoing); a negative value is a net payment by `a`. -/
def net_in (a : Addr) (l : List TokenTransfer) : Int :=
  l.foldl (fun acc t =>
    acc + (if t.dst = a then t.amount else 0) - (if t.src = a then t.amount else 0)) 0

/-- States reachable from a freshly initialized contract, i.e. executions in
which `initialize` is the first successful call. -/
inductive ReachableI : MState → Prop
  | base {a fr fb mn mx s₀} :
      init_market empty_state a fr fb mn mx = some s₀ → ReachableI s₀
  | step {s a s'} : ReachableI s → apply s a = some s' → ReachableI s'

section AssocLemmas

variable {α β : Type} [DecidableEq α]

theorem assocGet_assocSet (l : List (α × β)) (k k' : α) (v : β) :
    assocGet (assocSet l k v) k' = if k = k' then some v else assocGet l k' := by
  induction l with
  | nil => by_cases h : k = k' <;> simp [assocSet, assocGet, h]
  | cons p rest ih =>
    obtain ⟨a, b⟩ := p
    by_cases hak : a = k
    · subst hak
      by_cases h : a = k' <;> simp [assocSet, assocGet, h]
    · by_cases h : a = k'
      · subst h
        have hk : ¬ k = a := fun hh => hak hh.symm
        simp [assocSet, assocGet, hak, hk]
      · simp [assocSet, assocGet, hak, h, ih]

theorem assocGet_assocSet_self (l : List (α × β)) (k : α) (v : β) :
    assocGet (assocSet l k v) k = some v := by
  simp [assocGet_assocSet]

theorem assocGet_assocSet_other (l : List (α × β)) {k k' : α} (v : β)
    (h : k ≠ k') : assocGet (assocSet l k v) k' = assocGet l k' := by
  simp [assocGet_assocSet, h]

theorem mem_assocSet {l : List (α × β)} {k : α} {v : β} {p : α × β}
    (h : p ∈ assocSet l k v) : p = (k, v) ∨ p ∈ l := by
  induction l with
  | nil => simpa [assocSet] using h
  | cons q rest ih =>
    obtain ⟨a, b⟩ := q
    by_cases hak : a = k
    · subst hak
      simp [assocSet] at h
      rcases h with h | h
      · exact Or.inl (by simp [h])
      · exact Or.inr (by simp [h])
    · simp [assocSet, hak] at h
      rcases h with h | h
      · exact Or.inr (by simp [h])
      · rcases ih h with h' | h'
        · exact Or.inl h'
        · exact Or.inr (by simp [h'])

theorem assocGet_mem {l : List (α × β)} {k : α} {v : β}
    (h : assocGet l k = some v) : (k, v) ∈ l := by
  induction l with
  | nil => simp [assocGet] at h
  | cons q rest ih =>
    obtain ⟨a, b⟩ := q
    by_cases hak : a = k
    · subst hak
      simp [assocGet] at h
      simp [h]
    · simp [assocGet, hak] at h
      exact List.mem_cons_of_mem _ (ih h)

end AssocLemmas

theorem record_price_history_eq (h : List Int) (p : Int) :
    record_price_history h p = (h ++ [p]).drop (h.length + 1 - 100) := by
  unfold record_price_history
  by_cases hl : (h ++ [p]).length > 100
  · simp only [hl, if_pos]
    simp [List.length_append]
  · simp only [hl, if_neg, not_false_iff]
    have : h.length + 1 - 100 = 0 := by
      simp [List.length_append] at hl
      omega
    simp [this]

theorem record_price_history_length (h : List Int) (p : Int) :
    (record_price_history h p).length = min (h.length + 1) 100 := by
  rw [record_price_history_eq]
  simp [List.length_append]
  omega

theorem record_price_history_le_100 (h : List Int) (p : Int) :
    (record_price_history h p).length ≤ 100 := by
  rw [record_price_history_length]
  omega

theorem record_price_history_suffix (h : List Int) (p : Int) :
    (record_price_history h p).IsSuffix (h ++ [p]) := by
  rw [record_price_history_eq]
  exact List.drop_suffix _ _

theorem record_price_history_small (h : List Int) (p : Int)
    (hl : h.length < 100) : record_price_history h p = h ++ [p] := by
  rw [record_price_history_eq]
  have : h.length + 1 - 100 = 0 := by omega
  simp [this]

/-- All storage fields that the bulk-refund loops leave untouched. -/
def FrameEq (s t : MState) : Prop :=
  t.config = s.config ∧ t.listing_count = s.listing_count ∧
  t.offer_count = s.offer_count ∧ t.counter_offer_count = s.counter_offer_count ∧
  t.listings = s.listings ∧ t.counter_offers = s.counter_offers ∧
  t.offers_by_listing = s.offers_by_listing ∧
  t.counter_offers_by_offer = s.counter_offers_by_offer ∧
  t.listings_by_seller = s.listings_by_seller ∧
  t.listings_by_asset = s.listings_by_asset ∧
  t.active_listings = s.active_listings ∧ t.price_history = s.price_history ∧
  t.asset_transfers = s.asset_transfers

theorem FrameEq.rfl (s : MState) : FrameEq s s := by
  unfold FrameEq
  repeat constructor

theorem FrameEq.trans {s t u : MState} (h1 : FrameEq s t) (h2 : FrameEq t u) :
    FrameEq s u := by
  obtain ⟨a1, a2, a3, a4, a5, a6, a7, a8, a9, a10, a11, a12, a13⟩ := h1
  obtain ⟨b1, b2, b3, b4, b5, b6, b7, b8, b9, b10, b11, b12, b13⟩ := h2
  exact ⟨b1.trans a1, b2.trans a2, b3.trans a3, b4.trans a4, b5.trans a5,
    b6.trans a6, b7.trans a7, b8.trans a8, b9.trans a9, b10.trans a10,
    b11.trans a11, b12.trans a12, b13.trans a13⟩

theorem refund_step_frame (tok : Addr) (skip : Nat → Bool) (st : MState)
    (oid : Nat) : FrameEq st (refund_step tok skip st oid) := by
  unfold refund_step refund_offer_step
  by_cases hs : skip oid = true
  · simp only [hs, if_true]
    exact FrameEq.rfl st
  · simp only [hs, if_false, Bool.false_eq_true]
    cases h : assocGet st.offers oid with
    | none => exact FrameEq.rfl st
    | some o =>
      by_cases ho : o.status = OfferStatus.Open
      · simp only [ho, if_true]
        unfold FrameEq
        repeat constructor
      · simp only [ho, if_false]
        exact FrameEq.rfl st

theorem refund_fold_frame (tok : Addr) (skip : Nat → Bool) (oids : List Nat) :
    ∀ s : MState, FrameEq s (oids.foldl (refund_step tok skip) s) := by
  induction oids with
  | nil => intro s; exact FrameEq.rfl s
  | cons a rest ih =>
    intro s
    simp only [List.foldl_cons]
    exact FrameEq.trans (refund_step_frame tok skip s a)
      (ih (refund_step tok skip s a))

theorem refund_step_transfers (tok : Addr) (skip : Nat → Bool) (st : MState)
    (oid : Nat) : ∃ tl, (refund_step tok skip st oid).token_transfers =
      st.token_transfers ++ tl := by
  unfold refund_step refund_offer_step
  by_cases hs : skip oid = true
  · exact ⟨[], by simp [hs]⟩
  · simp only [hs, if_false, Bool.false_eq_true]
    cases h : assocGet st.offers oid with
    | none => exact ⟨[], by simp⟩
    | some o =>
      by_cases ho : o.status = OfferStatus.Open
      · refine ⟨[{ token := tok, src := contract_addr, dst := o.buyer,
                   amount := o.price }], ?_⟩
        simp [ho]
      · exact ⟨[], by simp [ho]⟩

theorem refund_fold_transfers (tok : Addr) (skip : Nat → Bool)
    (oids : List Nat) : ∀ s : MState,
    ∃ tl, (oids.foldl (refund_step tok skip) s).token_transfers =
      s.token_transfers ++ tl := by
  induction oids with
  | nil => intro s; exact ⟨[], by simp⟩
  | cons a rest ih =>
    intro s
    simp only [List.foldl_cons]
    obtain ⟨t1, h1⟩ := refund_step_transfers tok skip s a
    obtain ⟨t2, h2⟩ := ih (refund_step tok skip s a)
    exact ⟨t1 ++ t2, by rw [h2, h1, List.append_assoc]⟩

theorem refund_step_offers (tok : Addr) (skip : Nat → Bool) (st : MState)
    (oid k : Nat) :
    assocGet (refund_step tok skip st oid).offers k = assocGet st.offers k ∨
    ∃ o, assocGet st.offers k = some o ∧ o.status = OfferStatus.Open ∧
      assocGet (refund_step tok skip st oid).offers k =
        some ({ o with status := OfferStatus.Cancelled }) := by
  unfold refund_step refund_offer_step
  by_cases hs : skip oid = true
  · simp [hs]
  · simp only [hs, if_false, Bool.false_eq_true]
    cases h : assocGet st.offers oid with
    | none => simp
    | some o =>
      by_cases ho : o.status = OfferStatus.Open
      · simp only [ho, if_true]
        by_cases hk : oid = k
        · subst hk
          right
          exact ⟨o, h, ho, by simp [assocGet_assocSet]⟩
        · left
          simp [assocGet_assocSet, hk]
      · simp [ho]

theorem refund_step_offers_ne (tok : Addr) (skip : Nat → Bool) (st : MState)
    {oid k : Nat} (h : oid ≠ k) :
    assocGet (refund_step tok skip st oid).offers k = assocGet st.offers k := by
  unfold refund_step refund_offer_step
  by_cases hs : skip oid = true
  · simp [hs]
  · simp only [hs, if_false, Bool.false_eq_true]
    cases hl : assocGet st.offers oid with
    | none => simp
    | some o =>
      by_cases ho : o.status = OfferStatus.Open
      · simp [ho, assocGet_assocSet, h]
      · simp [ho]

theorem refund_fold_offers (tok : Addr) (skip : Nat → Bool) (oids : List Nat) :
    ∀ (s : MState) (k : Nat),
    assocGet (oids.foldl (refund_step tok skip) s).offers k =
      assocGet s.offers k ∨
    ∃ o, assocGet s.offers k = some o ∧ o.status = OfferStatus.Open ∧
      assocGet (oids.foldl (refund_step tok skip) s).offers k =
        some ({ o with status := OfferStatus.Cancelled }) := by
  induction oids with
  | nil => intro s k; simp
  | cons a rest ih =>
    intro s k
    simp only [List.foldl_cons]
    rcases ih (refund_step tok skip s a) k with hrest | ⟨o1, ho1, hopen1, hfold⟩
    · rcases refund_step_offers tok skip s a k with hstep | ⟨o, hso, hopen, hst1⟩
      · exact Or.inl (hrest.trans hstep)
      · exact Or.inr ⟨o, hso, hopen, hrest.trans hst1⟩
    · rcases refund_step_offers tok skip s a k with hstep | ⟨o, hso, hopen, hst1⟩
      · exact Or.inr ⟨o1, hstep ▸ ho1, hopen1, hfold⟩
      · rw [hst1] at ho1
        cases ho1
        simp at hopen1

theorem refund_fold_nonopen (tok : Addr) (skip : Nat → Bool) (oids : List Nat)
    (s : MState) {k : Nat} {o : Offer} (hl : assocGet s.offers k = some o)
    (ho : o.status ≠ OfferStatus.Open) :
    assocGet (oids.foldl (refund_step tok skip) s).offers k = some o := by
  rcases refund_fold_offers tok skip oids s k with h | ⟨o', ho', hopen', _⟩
  · exact h.trans hl
  · rw [hl] at ho'
    cases ho'
    exact absurd hopen' ho

theorem refund_fold_none (tok : Addr) (skip : Nat → Bool) (oids : List Nat)
    (s : MState) {k : Nat} (hl : assocGet s.offers k = none) :
    assocGet (oids.foldl (refund_step tok skip) s).offers k = none := by
  rcases refund_fold_offers tok skip oids s k with h | ⟨o', ho', _, _⟩
  · exact h.trans hl
  · rw [hl] at ho'
    cases ho'

/-- Success state of `create_listing` (the value stored under the fresh id). -/
@[reducible] def create_listing_effect (s : MState) (seller : Addr) (asset : Asset)
    (payment_token : Addr) (price : Int) (creator : Option Addr)
    (royalty_bps : Nat) (now : Nat) : MState :=
  let s1 := { s with asset_transfers := s.asset_transfers ++
      ([{ contract := asset.contract, token_id := asset.token_id,
          src := seller, dst := contract_addr }] : List AssetTransfer) }
  let lid := s1.listing_count + 1
  let listing : Listing :=
    { listing_id := lid, seller := seller, asset := asset,
      payment_token := payment_token, price := price,
      status := ListingStatus.Active, created_time := now,
      creator := creator, royalty_bps := royalty_bps }
  { s1 with
    listing_count := lid,
    listings := assocSet s1.listings lid listing,
    listings_by_seller := assocSet s1.listings_by_seller seller
      ((assocGet s1.listings_by_seller seller).getD [] ++ [lid]),
    listings_by_asset := assocSet s1.listings_by_asset
      (asset.contract, asset.token_id)
      ((assocGet s1.listings_by_asset (asset.contract, asset.token_id)).getD []
        ++ [lid]),
    active_listings := s1.active_listings ++ [lid] }

theorem create_listing_eq_some {s : MState} {seller : Addr} {asset : Asset}
    {pt : Addr} {price : Int} {creator : Option Addr} {roy : Nat}
    {owner : Addr} {now : Nat} {r : Nat × MState}
    (h : create_listing s seller asset pt price creator roy owner now = some r) :
    0 < price ∧ roy ≤ 10000 ∧ owner = seller ∧
    r = (s.listing_count + 1,
         create_listing_effect s seller asset pt price creator roy now) := by
  unfold create_listing at h
  by_cases h1 : price ≤ 0
  · simp [h1] at h
  · by_cases h2 : roy > 10000
    · simp [h1, h2] at h
    · by_cases h3 : owner = seller
      · simp only [h1, h2, h3, if_false, ne_eq, not_true_eq_false,
          Option.some.injEq] at h
        refine ⟨by omega, by omega, h3, ?_⟩
        rw [← h]
      · simp [h1, h2, h3] at h

theorem init_market_eq_some {s : MState} {a fr : Addr} {fb mn mx : Nat}
    {s' : MState} (h : init_market s a fr fb mn mx = some s') :
    s.config = none ∧ fb ≤ 10000 ∧
    s' = { s with
      config := some { admin := a, fee_recipient := fr, fee_bps := fb,
                       min_listing_duration := mn, max_listing_duration := mx },
      listing_count := 0, offer_count := 0, counter_offer_count := 0 } := by
  unfold init_market at h
  by_cases h1 : s.config.isSome
  · simp [h1] at h
  · by_cases h2 : fb > 10000
    · simp [h1, h2] at h
    · simp only [h1, h2, if_false, Bool.false_eq_true, Option.some.injEq] at h
      exact ⟨Option.not_isSome_iff_eq_none.mp h1, by omega, h.symm⟩

theorem update_config_eq_some {s : MState} {fr : Option Addr}
    {fb : Option Nat} {mn mx : Option Nat} {s' : MState}
    (h : update_config s fr fb mn mx = some s') :
    ∃ cfg cfg', s.config = some cfg ∧ s' = { s with config := some cfg' } := by
  unfold update_config at h
  cases hc : s.config with
  | none => simp [hc] at h
  | some cfg =>
    simp only [hc] at h
    cases fb with
    | none =>
      simp only [Option.some.injEq] at h
      exact ⟨cfg, _, rfl, h.symm⟩
    | some b =>
      by_cases hb : b > 10000
      · simp [hb] at h
      · simp only [hb, if_false, Bool.false_eq_true, Option.some.injEq] at h
        exact ⟨cfg, _, rfl, h.symm⟩

/-- Success state of `create_offer` (fresh open offer plus escrow transfer). -/
@[reducible] def create_offer_effect (s : MState) (buyer : Addr) (listing_id : Nat)
    (price : Int) (expiration_time : Option Nat) (now : Nat)
    (listing : Listing) : MState :=
  let oid := s.offer_count + 1
  let offer : Offer :=
    { offer_id := oid, listing_id := listing_id, buyer := buyer,
      price := price, status := OfferStatus.Open, created_time := now,
      expiration_time := expiration_time }
  { s with
    offer_count := oid,
    offers := assocSet s.offers oid offer,
    offers_by_listing := assocSet s.offers_by_listing listing_id
      ((assocGet s.offers_by_listing listing_id).getD [] ++ [oid]),
    token_transfers := s.token_transfers ++
      [{ token := listing.payment_token, src := buyer,
         dst := contract_addr, amount := price }] }

theorem create_offer_eq_some {s : MState} {buyer : Addr} {lid : Nat}
    {price : Int} {e : Option Nat} {now : Nat} {r : Nat × MState}
    (h : create_offer s buyer lid price e now = some r) :
    ∃ listing, assocGet s.listings lid = some listing ∧
      listing.status = ListingStatus.Active ∧ listing.seller ≠ buyer ∧
      0 < price ∧ is_future e now = true ∧
      r = (s.offer_count + 1, create_offer_effect s buyer lid price e now listing) := by
  unfold create_offer at h
  cases hl : assocGet s.listings lid with
  | none => simp [hl] at h
  | some listing =>
    simp only [hl] at h
    by_cases h1 : listing.status = ListingStatus.Active
    · by_cases h2 : listing.seller = buyer
      · simp [h1, h2] at h
      · by_cases h3 : price ≤ 0
        · simp [h1, h2, h3] at h
        · by_cases h4 : is_future e now = true
          · simp only [h1, h2, h3, h4, ne_eq, not_true_eq_false, if_false,
              not_false_eq_true, not_true, Option.some.injEq] at h
            exact ⟨listing, rfl, h1, h2, by omega, h4, h.symm⟩
          · simp [h1, h2, h3, h4] at h
    · simp [h1] at h

theorem reject_offer_eq_some {s : MState} {seller : Addr} {oid : Nat}
    {s' : MState} (h : reject_offer s seller oid = some s') :
    ∃ offer listing, assocGet s.offers oid = some offer ∧
      offer.status = OfferStatus.Open ∧
      assocGet s.listings offer.listing_id = some listing ∧
      listing.seller = seller ∧
      s' = { s with
        token_transfers := s.token_transfers ++
          [{ token := listing.payment_token, src := contract_addr,
             dst := offer.buyer, amount := offer.price }],
        offers := assocSet s.offers oid
          ({ offer with status := OfferStatus.Rejected }) } := by
  unfold reject_offer at h
  cases ho : assocGet s.offers oid with
  | none => simp [ho] at h
  | some offer =>
    simp only [ho] at h
    by_cases h1 : offer.status = OfferStatus.Open
    · cases hl : assocGet s.listings offer.listing_id with
      | none => simp [h1, hl] at h
      | some listing =>
        simp only [h1, hl, ne_eq, not_true_eq_false, if_false] at h
        by_cases h2 : listing.seller = seller
        · simp only [h2, not_true_eq_false, if_false, Option.some.injEq] at h
          exact ⟨offer, listing, rfl, h1, hl, h2, h.symm⟩
        · simp [h2] at h
    · simp [h1] at h

theorem cancel_offer_eq_some {s : MState} {buyer : Addr} {oid : Nat}
    {s' : MState} (h : cancel_offer s buyer oid = some s') :
    ∃ offer listing, assocGet s.offers oid = some offer ∧
      offer.buyer = buyer ∧ offer.status = OfferStatus.Open ∧
      assocGet s.listings offer.listing_id = some listing ∧
      s' = { s with
        token_transfers := s.token_transfers ++
          [{ token := listing.payment_token, src := contract_addr,
             dst := buyer, amount := offer.price }],
        offers := assocSet s.offers oid
          ({ offer with status := OfferStatus.Cancelled }) } := by
  unfold cancel_offer at h
  cases ho : assocGet s.offers oid with
  | none => simp [ho] at h
  | some offer =>
    simp only [ho] at h
    by_cases h1 : offer.buyer = buyer
    · rw [if_neg (not_not_intro h1)] at h
      by_cases h2 : offer.status = OfferStatus.Open
      · rw [if_neg (not_not_intro h2)] at h
        cases hl : assocGet s.listings offer.listing_id with
        | none => simp [hl] at h
        | some listing =>
          simp only [hl, Option.some.injEq] at h
          exact ⟨offer, listing, rfl, h1, h2, hl, h.symm⟩
      · simp [h2] at h
    · simp [h1] at h

/-- Success state of `create_counter_offer`. -/
@[reducible] def create_counter_offer_effect (s : MState) (seller : Addr) (offer_id : Nat)
    (price : Int) (expiration_time : Option Nat) (now : Nat) (offer : Offer) :
    MState :=
  let cid := s.counter_offer_count + 1
  let counter : CounterOffer :=
    { counter_offer_id := cid, offer_id := offer_id, seller := seller,
      price := price, created_time := now, expiration_time := expiration_time }
  { s with
    counter_offer_count := cid,
    counter_offers := assocSet s.counter_offers cid counter,
    counter_offers_by_offer := assocSet s.counter_offers_by_offer offer_id
      ((assocGet s.counter_offers_by_offer offer_id).getD [] ++ [cid]),
    offers := assocSet s.offers offer_id
      ({ offer with status := OfferStatus.Countered }) }

theorem create_counter_offer_eq_some {s : MState} {seller : Addr} {oid : Nat}
    {price : Int} {e : Option Nat} {now : Nat} {r : Nat × MState}
    (h : create_counter_offer s seller oid price e now = some r) :
    ∃ offer listing, assocGet s.offers oid = some offer ∧
      offer.status = OfferStatus.Open ∧
      assocGet s.listings offer.listing_id = some listing ∧
      listing.seller = seller ∧ 0 < price ∧ is_future e now = true ∧
      r = (s.counter_offer_count + 1,
           create_counter_offer_effect s seller oid price e now offer) := by
  unfold create_counter_offer at h
  cases ho : assocGet s.offers oid with
  | none => simp [ho] at h
  | some offer =>
    simp only [ho] at h
    by_cases h1 : offer.status = OfferStatus.Open
    · cases hl : assocGet s.listings offer.listing_id with
      | none => simp [h1, hl] at h
      | some listing =>
        simp only [h1, hl, ne_eq, not_true_eq_false, if_false] at h
        by_cases h2 : listing.seller = seller
        · by_cases h3 : price ≤ 0
          · simp [h2, h3] at h
          · by_cases h4 : is_future e now = true
            · simp only [h2, h3, h4, not_true_eq_false, if_false,
                not_false_eq_true, Option.some.injEq] at h
              exact ⟨offer, listing, rfl, h1, hl, h2, by omega, h4, h.symm⟩
            · simp [h2, h3, h4] at h
        · simp [h2] at h
    · simp [h1] at h

theorem refund_listing_offers_eq_some {s : MState} {lid : Nat}
    {skip : Nat → Bool} {s' : MState}
    (h : refund_listing_offers s lid skip = some s') :
    ∃ listing, assocGet s.listings lid = some listing ∧
      s' = ((assocGet s.offers_by_listing lid).getD []).foldl
        (refund_step listing.payment_token skip) s := by
  unfold refund_listing_offers at h
  cases hl : assocGet s.listings lid with
  | none => simp [hl] at h
  | some listing =>
    simp only [hl, Option.some.injEq] at h
    exact ⟨listing, rfl, h.symm⟩

/-- State of `buy` after the value movements and status flip, just before the
active-index removal and the history record. -/
@[reducible] def buy_pre (s : MState) (buyer : Addr) (listing_id : Nat) (listing : Listing)
    (config : MarketplaceConfig) (sa fa ra : Int) : MState :=
  { s with
    token_transfers := s.token_transfers ++
      ([{ token := listing.payment_token, src := buyer, dst := contract_addr,
          amount := listing.price }] ++
       payout_legs listing.payment_token listing.seller config.fee_recipient
         listing.creator sa fa ra),
    asset_transfers := s.asset_transfers ++
      ([{ contract := listing.asset.contract,
          token_id := listing.asset.token_id,
          src := contract_addr, dst := buyer }] : List AssetTransfer),
    listings := assocSet s.listings listing_id
      ({ listing with status := ListingStatus.Sold }) }

theorem buy_eq_some {s : MState} {buyer : Addr} {lid : Nat} {s' : MState}
    (h : buy s buyer lid = some s') :
    ∃ listing config sa fa ra,
      assocGet s.listings lid = some listing ∧
      listing.status = ListingStatus.Active ∧ listing.seller ≠ buyer ∧
      s.config = some config ∧
      calculate_payouts listing.price config.fee_bps listing.royalty_bps =
        some (sa, fa, ra) ∧
      s' = record_price_history_op
        (remove_from_active_listings
          (buy_pre s buyer lid listing config sa fa ra) lid)
        listing.asset.contract listing.asset.token_id listing.price := by
  unfold buy at h
  cases hl : assocGet s.listings lid with
  | none => simp [hl] at h
  | some listing =>
    simp only [hl] at h
    by_cases h1 : listing.status = ListingStatus.Active
    · rw [if_neg (not_not_intro h1)] at h
      by_cases h2 : listing.seller = buyer
      · simp [h2] at h
      · rw [if_neg h2] at h
        cases hc : s.config with
        | none => simp [hc] at h
        | some config =>
          simp only [hc] at h
          cases hp : calculate_payouts listing.price config.fee_bps
              listing.royalty_bps with
          | none => simp [hp] at h
          | some t =>
            obtain ⟨sa, fa, ra⟩ := t
            simp only [hp, Option.some.injEq] at h
            rw [← hc] at h
            exact ⟨listing, config, sa, fa, ra, rfl, h1, h2, rfl, hp, h.symm⟩
    · simp [h1] at h

/-- State of `accept_offer` after payments, asset hand-over and status flips,
just before the active-index removal, bulk refund and history record. -/
@[reducible] def accept_pre (s : MState) (seller : Addr) (offer_id : Nat) (offer : Offer)
    (listing : Listing) (config : MarketplaceConfig) (sa fa ra : Int) :
    MState :=
  { s with
    token_transfers := s.token_transfers ++
      payout_legs listing.payment_token seller config.fee_recipient
        listing.creator sa fa ra,
    asset_transfers := s.asset_transfers ++
      ([{ contract := listing.asset.contract,
          token_id := listing.asset.token_id,
          src := contract_addr, dst := offer.buyer }] : List AssetTransfer),
    offers := assocSet s.offers offer_id
      ({ offer with status := OfferStatus.Accepted }),
    listings := assocSet s.listings offer.listing_id
      ({ listing with status := ListingStatus.Sold }) }

theorem accept_offer_eq_some {s : MState} {seller : Addr} {oid : Nat}
    {now : Nat} {s' : MState} (h : accept_offer s seller oid now = some s') :
    ∃ offer listing config sa fa ra s3,
      assocGet s.offers oid = some offer ∧
      offer.status = OfferStatus.Open ∧
      is_expired offer.expiration_time now = false ∧
      assocGet s.listings offer.listing_id = some listing ∧
      listing.seller = seller ∧ listing.status = ListingStatus.Active ∧
      s.config = some config ∧
      calculate_payouts offer.price config.fee_bps listing.royalty_bps =
        some (sa, fa, ra) ∧
      refund_other_offers
        (remove_from_active_listings
          (accept_pre s seller oid offer listing config sa fa ra)
          offer.listing_id)
        offer.listing_id oid = some s3 ∧
      s' = record_price_history_op s3 listing.asset.contract
        listing.asset.token_id offer.price := by
  unfold accept_offer at h
  cases ho : assocGet s.offers oid with
  | none => simp [ho] at h
  | some offer =>
    simp only [ho] at h
    by_cases h1 : offer.status = OfferStatus.Open
    · rw [if_neg (not_not_intro h1)] at h
      cases he : is_expired offer.expiration_time now with
      | true => simp [he] at h
      | false =>
        simp only [he, Bool.false_eq_true, if_false] at h
        cases hl : assocGet s.listings offer.listing_id with
        | none => simp [hl] at h
        | some listing =>
          simp only [hl] at h
          by_cases h2 : listing.seller = seller
          · rw [if_neg (not_not_intro h2)] at h
            by_cases h3 : listing.status = ListingStatus.Active
            · rw [if_neg (not_not_intro h3)] at h
              cases hc : s.config with
              | none => simp [hc] at h
              | some config =>
                simp only [hc] at h
                cases hp : calculate_payouts offer.price config.fee_bps
                    listing.royalty_bps with
                | none => simp [hp] at h
                | some t =>
                  obtain ⟨sa, fa, ra⟩ := t
                  simp only [hp] at h
                  rw [← hc] at h
                  cases hr : refund_other_offers
                      (remove_from_active_listings
                        (accept_pre s seller oid offer listing config sa fa ra)
                        offer.listing_id)
                      offer.listing_id oid with
                  | none =>
                    rw [hr] at h
                    simp at h
                  | some s3 =>
                    rw [hr] at h
                    simp only [Option.some.injEq] at h
                    exact ⟨offer, listing, config, sa, fa, ra, s3, rfl, h1, he,
                      hl, h2, h3, rfl, hp, hr, h.symm⟩
            · simp [h3] at h
          · simp [h2] at h
    · simp [h1] at h

/-- State of `accept_counter_offer` after refund, difference charge, payouts,
asset hand-over and status flips, just before the active-index removal,
bulk refund and history record. -/
@[reducible] def accept_counter_pre (s : MState) (buyer : Addr) (counter : CounterOffer)
    (offer : Offer) (listing : Listing) (config : MarketplaceConfig)
    (sa fa ra : Int) : MState :=
  { s with
    token_transfers := s.token_transfers ++
      [{ token := listing.payment_token, src := contract_addr, dst := buyer,
         amount := offer.price }] ++
      (if counter.price - offer.price > 0 then
        [{ token := listing.payment_token, src := buyer, dst := contract_addr,
           amount := counter.price - offer.price }]
       else []) ++
      payout_legs listing.payment_token counter.seller config.fee_recipient
        listing.creator sa fa ra,
    asset_transfers := s.asset_transfers ++
      ([{ contract := listing.asset.contract,
          token_id := listing.asset.token_id,
          src := contract_addr, dst := buyer }] : List AssetTransfer),
    offers := assocSet s.offers counter.offer_id
      ({ offer with status := OfferStatus.Accepted }),
    listings := assocSet s.listings offer.listing_id
      ({ listing with status := ListingStatus.Sold }) }

theorem accept_counter_offer_eq_some {s : MState} {buyer : Addr} {cid : Nat}
    {now : Nat} {s' : MState}
    (h : accept_counter_offer s buyer cid now = some s') :
    ∃ counter offer listing config sa fa ra s3,
      assocGet s.counter_offers cid = some counter ∧
      assocGet s.offers counter.offer_id = some offer ∧
      offer.buyer = buyer ∧
      is_expired counter.expiration_time now = false ∧
      assocGet s.listings offer.listing_id = some listing ∧
      s.config = some config ∧
      calculate_payouts counter.price config.fee_bps listing.royalty_bps =
        some (sa, fa, ra) ∧
      refund_other_offers
        (remove_from_active_listings
          (accept_counter_pre s buyer counter offer listing config sa fa ra)
          offer.listing_id)
        offer.listing_id counter.offer_id = some s3 ∧
      s' = record_price_history_op s3 listing.asset.contract
        listing.asset.token_id counter.price := by
  unfold accept_counter_offer at h
  cases hco : assocGet s.counter_offers cid with
  | none => simp [hco] at h
  | some counter =>
    simp only [hco] at h
    cases ho : assocGet s.offers counter.offer_id with
    | none => simp [ho] at h
    | some offer =>
      simp only [ho] at h
      by_cases h1 : offer.buyer = buyer
      · rw [if_neg (not_not_intro h1)] at h
        cases he : is_expired counter.expiration_time now with
        | true => simp [he] at h
        | false =>
          simp only [he, Bool.false_eq_true, if_false] at h
          cases hl : assocGet s.listings offer.listing_id with
          | none => simp [hl] at h
          | some listing =>
            simp only [hl] at h
            cases hc : s.config with
            | none => simp [hc] at h
            | some config =>
              simp only [hc] at h
              cases hp : calculate_payouts counter.price config.fee_bps
                  listing.royalty_bps with
              | none => simp [hp] at h
              | some t =>
                obtain ⟨sa, fa, ra⟩ := t
                simp only [hp] at h
                rw [← hc] at h
                cases hr : refund_other_offers
                    (remove_from_active_listings
                      (accept_counter_pre s buyer counter offer listing config
                        sa fa ra)
                      offer.listing_id)
                    offer.listing_id counter.offer_id with
                | none =>
                  rw [hr] at h
                  simp at h
                | some s3 =>
                  rw [hr] at h
                  simp only [Option.some.injEq] at h
                  exact ⟨counter, offer, listing, config, sa, fa, ra, s3, rfl,
                    ho, h1, he, hl, rfl, hp, hr, h.symm⟩
      · simp [h1] at h

/-- State of `cancel_listing` after the asset is returned to the seller, just
before the bulk refund, status flip and index removal. -/
@[reducible] def cancel_listing_pre (s : MState) (seller : Addr) (listing : Listing) :
    MState :=
  { s with asset_transfers := s.asset_transfers ++
      ([{ contract := listing.asset.contract,
          token_id := listing.asset.token_id,
          src := contract_addr, dst := seller }] : List AssetTransfer) }

theorem cancel_listing_eq_some {s : MState} {seller : Addr} {lid : Nat}
    {s' : MState} (h : cancel_listing s seller lid = some s') :
    ∃ listing s2,
      assocGet s.listings lid = some listing ∧ listing.seller = seller ∧
      listing.status = ListingStatus.Active ∧
      refund_all_offers (cancel_listing_pre s seller listing) lid = some s2 ∧
      s' = remove_from_active_listings
        { s2 with
          listings := assocSet s2.listings lid
            ({ listing with status := ListingStatus.Cancelled }) } lid := by
  unfold cancel_listing at h
  cases hl : assocGet s.listings lid with
  | none => simp [hl] at h
  | some listing =>
    simp only [hl] at h
    by_cases h1 : listing.seller = seller
    · rw [if_neg (not_not_intro h1)] at h
      by_cases h2 : listing.status = ListingStatus.Active
      · rw [if_neg (not_not_intro h2)] at h
        cases hr : refund_all_offers (cancel_listing_pre s seller listing)
            lid with
        | none =>
          rw [hr] at h
          simp at h
        | some s2 =>
          rw [hr] at h
          simp only [Option.some.injEq] at h
          exact ⟨listing, s2, rfl, h1, h2, hr, h.symm⟩
      · simp [h2] at h
    · simp [h1] at h

theorem refund_fold_cancels (tok : Addr) (skip : Nat → Bool) (oids : List Nat) :
    ∀ (s : MState) (k : Nat) (o : Offer), k ∈ oids → skip k = false →
    assocGet s.offers k = some o → o.status = OfferStatus.Open →
    assocGet (oids.foldl (refund_step tok skip) s).offers k =
      some ({ o with status := OfferStatus.Cancelled }) ∧
    ({ token := tok, src := contract_addr, dst := o.buyer,
       amount := o.price } : TokenTransfer) ∈
      (oids.foldl (refund_step tok skip) s).token_transfers := by
  induction oids with
  | nil => intro s k o hmem; cases hmem
  | cons a rest ih =>
    intro s k o hmem hskip hlook hopen
    simp only [List.foldl_cons]
    by_cases hka : k = a
    · subst hka
      have hst1 : assocGet (refund_step tok skip s k).offers k =
          some ({ o with status := OfferStatus.Cancelled }) ∧
          ({ token := tok, src := contract_addr, dst := o.buyer,
             amount := o.price } : TokenTransfer) ∈
            (refund_step tok skip s k).token_transfers := by
        unfold refund_step refund_offer_step
        simp only [hskip, if_false, Bool.false_eq_true, hlook, hopen, if_true]
        constructor
        · simp [assocGet_assocSet]
        · simp
      refine ⟨refund_fold_nonopen tok skip rest _ hst1.1 (by simp), ?_⟩
      obtain ⟨tl, htl⟩ := refund_fold_transfers tok skip rest
        (refund_step tok skip s k)
      rw [htl]
      exact List.mem_append_left _ hst1.2
    · have hmem' : k ∈ rest := by
        cases hmem with
        | head => exact absurd rfl hka
        | tail _ h => exact h
      have hst1 : assocGet (refund_step tok skip s a).offers k =
          assocGet s.offers k :=
        refund_step_offers_ne tok skip s (fun h => hka h.symm)
      exact ih (refund_step tok skip s a) k o hmem' hskip
        (hst1.trans hlook) hopen

/-- A sample asset used by the concrete scenarios. -/
def sampleAsset : Asset :=
  { asset_type := AssetType.NFT, contract := 50, token_id := 7 }

theorem reachable_of_trace :
    ∀ (l : List Action) (s s' : MState), Reachable s →
      apply_trace s l = some s' → Reachable s' := by
  intro l
  induction l with
  | nil =>
    intro s s' hs h
    unfold apply_trace at h
    cases h
    exact hs
  | cons a rest ih =>
    intro s s' hs h
    unfold apply_trace at h
    cases ha : apply s a with
    | none => rw [ha] at h; cases h
    | some s1 =>
      rw [ha] at h
      exact ih s1 s' (Reachable.step hs ha) h

theorem net_in_foldl (a : Addr) (l : List TokenTransfer) :
    ∀ acc : Int,
    l.foldl (fun acc t =>
      acc + (if t.dst = a then t.amount else 0) -
        (if t.src = a then t.amount else 0)) acc = acc + net_in a l := by
  induction l with
  | nil => intro acc; simp [net_in]
  | cons t rest ih =>
    intro acc
    unfold net_in
    simp only [List.foldl_cons]
    rw [ih, ih]
    ring

theorem net_in_append (a : Addr) (l1 l2 : List TokenTransfer) :
    net_in a (l1 ++ l2) = net_in a l1 + net_in a l2 := by
  unfold net_in
  rw [List.foldl_append, net_in_foldl]
  rfl

theorem net_in_single (a : Addr) (t : TokenTransfer) :
    net_in a [t] = (if t.dst = a then t.amount else 0) -
      (if t.src = a then t.amount else 0) := by
  simp [net_in]

/-- Components of a successful `calculate_payouts` call: the fee and royalty
are the truncated bps products and the seller amount is the remainder. -/
theorem checked_i128_some {x y : Int} (h : checked_i128 x = some y) : y = x := by
  unfold checked_i128 at h
  by_cases c : i128_min ≤ x ∧ x ≤ i128_max
  · rw [if_pos c] at h
    exact (Option.some.inj h).symm
  · rw [if_neg c] at h
    cases h

theorem calculate_payouts_inv {price : Int} {fb rb : Nat} {sa fa ra : Int}
    (h : calculate_payouts price fb rb = some (sa, fa, ra)) :
    fa = (price * (fb : Int)).tdiv 10000 ∧
    ra = (price * (rb : Int)).tdiv 10000 ∧
    sa = price - fa - ra := by
  cases hc1 : checked_i128 (price * (fb : Int)) with
  | none => simp [calculate_payouts, hc1] at h
  | some p1 =>
    have e1 := checked_i128_some hc1
    subst e1
    cases hc2 : checked_i128 (price * (rb : Int)) with
    | none => simp [calculate_payouts, hc1, hc2] at h
    | some p2 =>
      have e2 := checked_i128_some hc2
      subst e2
      cases hc3 : checked_i128 (price - (price * (fb : Int)).tdiv 10000) with
      | none => simp [calculate_payouts, hc1, hc2, hc3] at h
      | some d1 =>
        have e3 := checked_i128_some hc3
        subst e3
        cases hc4 : checked_i128 (price - (price * (fb : Int)).tdiv 10000 -
            (price * (rb : Int)).tdiv 10000) with
        | none => simp [calculate_payouts, hc1, hc2, hc3, hc4] at h
        | some sa0 =>
          have e4 := checked_i128_some hc4
          subst e4
          simp only [calculate_payouts, hc1, hc2, hc3, hc4, Option.some.injEq,
            Prod.mk.injEq] at h
          obtain ⟨h1, h2, h3⟩ := h
          refine ⟨h2.symm, h3.symm, ?_⟩
          rw [← h1, ← h2, ← h3]

/-- With no creator the royalty leg is dropped from the payout legs. -/
theorem payout_legs_no_creator (tok sd fr : Addr) (sa fa ra : Int) :
    payout_legs tok sd fr none sa fa ra =
      [{ token := tok, src := contract_addr, dst := sd, amount := sa }] ++
      (if fa > 0 then
        [{ token := tok, src := contract_addr, dst := fr, amount := fa }]
       else []) := by
  unfold payout_legs
  by_cases hra : ra > 0 <;> simp [hra]

/-- With a creator recorded and a positive royalty amount, the royalty leg is
one of the payout legs. -/
theorem payout_legs_creator_mem (tok sd fr c : Addr) (sa fa ra : Int)
    (hra : 0 < ra) :
    ({ token := tok, src := contract_addr, dst := c, amount := ra } :
      TokenTransfer) ∈ payout_legs tok sd fr (some c) sa fa ra := by
  unfold payout_legs
  simp [hra]

/-- The contract address's net intake over the payout legs when no creator is
recorded (seller and fee recipient distinct from the contract). -/
theorem net_in_payout_legs_no_creator (tok sd fr : Addr) (sa fa ra : Int)
    (hsd : sd ≠ contract_addr) (hfr : fr ≠ contract_addr) :
    net_in contract_addr (payout_legs tok sd fr none sa fa ra) =
      -sa - (if 0 < fa then fa else 0) := by
  rw [payout_legs_no_creator]
  rw [net_in_append, net_in_single]
  by_cases hfa : 0 < fa
  · rw [if_pos hfa, if_pos hfa, net_in_single]
    simp only [net_in_single]
    simp [hsd, hfr]
    ring
  · rw [if_neg hfa, if_neg hfa]
    simp [net_in, hsd]

theorem payouts_components (price : Int) (fb rb : Nat) (hp : 0 < price)
    (hf : fb ≤ 10000) (hr : rb ≤ 10000) (hb : price * 10000 ≤ i128_max) :
    calculate_payouts price fb rb =
      some (price - (price * (fb : Int)).tdiv 10000 -
              (price * (rb : Int)).tdiv 10000,
            (price * (fb : Int)).tdiv 10000,
            (price * (rb : Int)).tdiv 10000) := by
  have h10 : (0 : Int) < 10000 := by norm_num
  have hfb : (fb : Int) ≤ 10000 := by exact_mod_cast hf
  have hrb : (rb : Int) ≤ 10000 := by exact_mod_cast hr
  have hfb0 : (0 : Int) ≤ (fb : Int) := Int.natCast_nonneg fb
  have hrb0 : (0 : Int) ≤ (rb : Int) := Int.natCast_nonneg rb
  have hp0 : (0 : Int) ≤ price := le_of_lt hp
  have hpf : price * (fb : Int) ≤ price * 10000 :=
    mul_le_mul_of_nonneg_left hfb hp0
  have hpr : price * (rb : Int) ≤ price * 10000 :=
    mul_le_mul_of_nonneg_left hrb hp0
  have hpf0 : (0 : Int) ≤ price * (fb : Int) := mul_nonneg hp0 hfb0
  have hpr0 : (0 : Int) ≤ price * (rb : Int) := mul_nonneg hp0 hrb0
  have hmin0 : i128_min ≤ (0 : Int) := by norm_num [i128_min]
  have hpmax : price ≤ i128_max := by
    have h1 : price * 1 ≤ price * 10000 :=
      mul_le_mul_of_nonneg_left (by norm_num) hp0
    rw [mul_one] at h1
    exact le_trans h1 hb
  have hfeediv : (price * (fb : Int)).tdiv 10000 = price * (fb : Int) / 10000 :=
    Int.tdiv_eq_ediv hpf0 (by norm_num)
  have hroydiv : (price * (rb : Int)).tdiv 10000 = price * (rb : Int) / 10000 :=
    Int.tdiv_eq_ediv hpr0 (by norm_num)
  have hfee0 : 0 ≤ (price * (fb : Int)).tdiv 10000 := by
    rw [hfeediv]
    exact Int.ediv_nonneg hpf0 (by norm_num)
  have hroy0 : 0 ≤ (price * (rb : Int)).tdiv 10000 := by
    rw [hroydiv]
    exact Int.ediv_nonneg hpr0 (by norm_num)
  have hfeele : (price * (fb : Int)).tdiv 10000 ≤ price := by
    rw [hfeediv]
    calc price * (fb : Int) / 10000 ≤ price * 10000 / 10000 :=
          Int.ediv_le_ediv h10 hpf
      _ = price := Int.mul_ediv_cancel price (by norm_num)
  have hroyle : (price * (rb : Int)).tdiv 10000 ≤ price := by
    rw [hroydiv]
    calc price * (rb : Int) / 10000 ≤ price * 10000 / 10000 :=
          Int.ediv_le_ediv h10 hpr
      _ = price := Int.mul_ediv_cancel price (by norm_num)
  have hminmax : i128_min ≤ -i128_max := by norm_num [i128_min, i128_max]
  have c1 : checked_i128 (price * (fb : Int)) = some (price * (fb : Int)) := by
    unfold checked_i128
    rw [if_pos ⟨le_trans hmin0 hpf0, le_trans hpf hb⟩]
  have c2 : checked_i128 (price * (rb : Int)) = some (price * (rb : Int)) := by
    unfold checked_i128
    rw [if_pos ⟨le_trans hmin0 hpr0, le_trans hpr hb⟩]
  have c3 : checked_i128 (price - (price * (fb : Int)).tdiv 10000) =
      some (price - (price * (fb : Int)).tdiv 10000) := by
    unfold checked_i128
    rw [if_pos ⟨by omega, by omega⟩]
  have c4 : checked_i128 (price - (price * (fb : Int)).tdiv 10000 -
      (price * (rb : Int)).tdiv 10000) =
      some (price - (price * (fb : Int)).tdiv 10000 -
        (price * (rb : Int)).tdiv 10000) := by
    unfold checked_i128
    rw [if_pos ⟨by omega, by omega⟩]
  simp only [calculate_payouts, c1, c2, c3, c4]

/-- C4 counterexample: the claim quantifies over every i128 `price > 0`, but
at the maximal i128 price the products `price * fee_bps` overflow i128 and
`calculate_payouts` aborts instead of returning a triple, although
`price > 0`, `fee_bps ≤ 10000` and `royalty_bps ≤ 10000` all hold. -/
theorem calculate_payouts_overflow_at_max_price :
    0 < i128_max ∧ (250 ≤ 10000 ∧ 500 ≤ 10000) ∧
    calculate_payouts i128_max 250 500 = none := by
  exact ⟨by decide, ⟨by decide, by decide⟩, by decide⟩

/-- C4 (amended with the no-overflow bound `price * 10000 ≤ i128_max`):
for every price > 0 and rates ≤ 10000 whose bps products fit in i128,
`calculate_payouts` returns `fee = price*fee_bps/10000` and
`royalty = price*royalty_bps/10000` (truncating division),
`seller = price - fee - royalty`, and the three parts sum exactly to the
price. -/
theorem calculate_payouts_conservation (price : Int) (fb rb : Nat)
    (hp : 0 < price) (hf : fb ≤ 10000) (hr : rb ≤ 10000)
    (hb : price * 10000 ≤ i128_max) :
    ∃ sa fa ra, calculate_payouts price fb rb = some (sa, fa, ra) ∧
      fa = (price * (fb : Int)).tdiv 10000 ∧
      ra = (price * (rb : Int)).tdiv 10000 ∧
      sa = price - fa - ra ∧ sa + fa + ra = price := by
  refine ⟨_, _, _, payouts_components price fb rb hp hf hr hb, rfl, rfl, rfl, ?_⟩
  ring

/-- C4 witness: the scenario price 1000, fee 250 bps, royalty 500 bps. -/
theorem calculate_payouts_conservation_witness :
    (∃ sa fa ra, calculate_payouts 1000 250 500 = some (sa, fa, ra) ∧
      fa = ((1000 : Int) * ((250 : Nat) : Int)).tdiv 10000 ∧
      ra = ((1000 : Int) * ((500 : Nat) : Int)).tdiv 10000 ∧
      sa = 1000 - fa - ra ∧ sa + fa + ra = 1000) ∧
    calculate_payouts 1000 250 500 = some (925, 25, 50) :=
  ⟨calculate_payouts_conservation 1000 250 500 (by decide) (by decide)
    (by decide) (by decide), by decide⟩

/-- C10: fee_bps 6000 is accepted by `initialize` and royalty_bps 6000 by
`create_listing` (each individually ≤ 10000), their sum exceeds 10000, and
`calculate_payouts` then returns a strictly negative seller amount; no entry
point validates the combined rate. -/
theorem combined_rates_unchecked :
    (init_market empty_state 1 2 6000 0 0).isSome = true ∧
    ((init_market empty_state 1 2 6000 0 0).bind
      (fun s1 => (create_listing s1 3 sampleAsset 60 1000 none 6000 3 0).map
        (·.1))) = some 1 ∧
    calculate_payouts 1000 6000 6000 = some (-200, 600, 600) ∧
    ((-200 : Int) < 0) ∧ 6000 + 6000 > 10000 := by
  refine ⟨by decide, by decide, by decide, by decide, by decide⟩

/-- C6: `buy` fails on a missing listing, a non-Active listing, or when the
buyer is the seller; on success it escrows the price from the buyer, always
pays the seller leg, pays fee and royalty legs per `payout_legs` (fee only if
> 0, royalty only if > 0 and a creator exists), hands the asset to the buyer,
flips the listing to Sold, erases it from the active index and appends the
price to the asset's history. -/
theorem buy_contract (s : MState) (buyer : Addr) (lid : Nat) :
    (assocGet s.listings lid = none → buy s buyer lid = none) ∧
    (∀ listing, assocGet s.listings lid = some listing →
      listing.status ≠ ListingStatus.Active → buy s buyer lid = none) ∧
    (∀ listing, assocGet s.listings lid = some listing →
      listing.seller = buyer → buy s buyer lid = none) ∧
    (∀ s', buy s buyer lid = some s' →
      ∃ listing config sa fa ra,
        assocGet s.listings lid = some listing ∧
        listing.status = ListingStatus.Active ∧ listing.seller ≠ buyer ∧
        s.config = some config ∧
        calculate_payouts listing.price config.fee_bps listing.royalty_bps =
          some (sa, fa, ra) ∧
        s'.token_transfers = s.token_transfers ++
          ([{ token := listing.payment_token, src := buyer,
              dst := contract_addr, amount := listing.price }] ++
           payout_legs listing.payment_token listing.seller
             config.fee_recipient listing.creator sa fa ra) ∧
        ({ token := listing.payment_token, src := buyer, dst := contract_addr,
           amount := listing.price } : TokenTransfer) ∈ s'.token_transfers ∧
        ({ token := listing.payment_token, src := contract_addr,
           dst := listing.seller, amount := sa } : TokenTransfer) ∈
          s'.token_transfers ∧
        s'.asset_transfers = s.asset_transfers ++
          [{ contract := listing.asset.contract,
             token_id := listing.asset.token_id,
             src := contract_addr, dst := buyer }] ∧
        assocGet s'.listings lid =
          some ({ listing with status := ListingStatus.Sold }) ∧
        s'.active_listings = s.active_listings.erase lid ∧
        assocGet s'.price_history
            (listing.asset.contract, listing.asset.token_id) =
          some (record_price_history
            ((assocGet s.price_history
              (listing.asset.contract, listing.asset.token_id)).getD [])
            listing.price)) := by
  refine ⟨?_, ?_, ?_, ?_⟩
  · intro h
    unfold buy
    simp [h]
  · intro listing hl hst
    unfold buy
    simp only [hl]
    rw [if_pos hst]
  · intro listing hl hse
    unfold buy
    simp only [hl]
    by_cases h1 : listing.status = ListingStatus.Active
    · rw [if_neg (not_not_intro h1), if_pos hse]
    · rw [if_pos h1]
  · intro s' h
    obtain ⟨listing, config, sa, fa, ra, hl, h1, h2, hc, hp, hs'⟩ :=
      buy_eq_some h
    subst hs'
    refine ⟨listing, config, sa, fa, ra, hl, h1, h2, hc, hp, rfl, ?_, ?_, rfl,
      ?_, rfl, ?_⟩
    · exact List.mem_append_right _ (List.mem_append_left _ (by simp))
    · refine List.mem_append_right _ (List.mem_append_right _ ?_)
      unfold payout_legs
      simp
    · exact assocGet_assocSet_self _ _ _
    · exact assocGet_assocSet_self _ _ _

/-- The marketplace after `initialize` (fee 250 bps) and one listing by
seller 3 at price 1000 with creator 9 and royalty 500 bps. -/
def listed_state : MState :=
  (apply_trace empty_state
    [Action.init_market 1 2 250 0 0,
     Action.create_listing 3 sampleAsset 60 1000 (some 9) 500 3 0]).getD
    empty_state

/-- `listed_state` after buyer 5 buys listing 1. -/
def bought_state : MState := (buy listed_state 5 1).getD empty_state

/-- C6 witness: buyer 5 buys listing 1 of `listed_state`. -/
theorem buy_contract_witness :
    ∃ listing config sa fa ra,
      assocGet listed_state.listings 1 = some listing ∧
      listing.status = ListingStatus.Active ∧ listing.seller ≠ 5 ∧
      listed_state.config = some config ∧
      calculate_payouts listing.price config.fee_bps listing.royalty_bps =
        some (sa, fa, ra) ∧
      bought_state.token_transfers = listed_state.token_transfers ++
        ([{ token := listing.payment_token, src := 5,
            dst := contract_addr, amount := listing.price }] ++
         payout_legs listing.payment_token listing.seller
           config.fee_recipient listing.creator sa fa ra) ∧
      ({ token := listing.payment_token, src := 5, dst := contract_addr,
         amount := listing.price } : TokenTransfer) ∈
        bought_state.token_transfers ∧
      ({ token := listing.payment_token, src := contract_addr,
         dst := listing.seller, amount := sa } : TokenTransfer) ∈
        bought_state.token_transfers ∧
      bought_state.asset_transfers = listed_state.asset_transfers ++
        [{ contract := listing.asset.contract,
           token_id := listing.asset.token_id,
           src := contract_addr, dst := 5 }] ∧
      assocGet bought_state.listings 1 =
        some ({ listing with status := ListingStatus.Sold }) ∧
      bought_state.active_listings = listed_state.active_listings.erase 1 ∧
      assocGet bought_state.price_history
          (listing.asset.contract, listing.asset.token_id) =
        some (record_price_history
          ((assocGet listed_state.price_history
            (listing.asset.contract, listing.asset.token_id)).getD [])
          listing.price) :=
  (buy_contract listed_state 5 1).2.2.2 bought_state (by decide)

/-- Lookup after a `record_price_history_op` write. -/
theorem record_op_lookup (s : MState) (c : Addr) (tid : Nat) (p : Int)
    (key : Addr × Nat) :
    assocGet (record_price_history_op s c tid p).price_history key =
      if (c, tid) = key then
        some (record_price_history
          ((assocGet s.price_history (c, tid)).getD []) p)
      else assocGet s.price_history key := by
  unfold record_price_history_op
  rw [assocGet_assocSet]

/-- Per-operation effect on the price-history store: every public operation
leaves an asset's history unchanged or replaces it by a
`record_price_history` result. -/
theorem apply_price_history {s : MState} {a : Action} {s' : MState}
    (h : apply s a = some s') (key : Addr × Nat) :
    assocGet s'.price_history key = assocGet s.price_history key ∨
    ∃ old p, assocGet s'.price_history key =
      some (record_price_history old p) := by
  cases a with
  | init_market ad fr fb mn mx =>
    obtain ⟨-, -, hs'⟩ := init_market_eq_some h
    subst hs'
    exact Or.inl rfl
  | update_config fr fb mn mx =>
    obtain ⟨cfg, cfg', -, hs'⟩ := update_config_eq_some h
    subst hs'
    exact Or.inl rfl
  | create_listing seller asset pt price creator roy owner now =>
    simp only [apply] at h
    obtain ⟨r, hr, hs'⟩ := Option.map_eq_some'.mp h
    obtain ⟨-, -, -, hr2⟩ := create_listing_eq_some hr
    subst hr2
    subst hs'
    exact Or.inl rfl
  | create_offer buyer lid price e now =>
    simp only [apply] at h
    obtain ⟨r, hr, hs'⟩ := Option.map_eq_some'.mp h
    obtain ⟨listing, -, -, -, -, -, hr2⟩ := create_offer_eq_some hr
    subst hr2
    subst hs'
    exact Or.inl rfl
  | create_counter_offer seller oid price e now =>
    simp only [apply] at h
    obtain ⟨r, hr, hs'⟩ := Option.map_eq_some'.mp h
    obtain ⟨offer, listing, -, -, -, -, -, -, hr2⟩ :=
      create_counter_offer_eq_some hr
    subst hr2
    subst hs'
    exact Or.inl rfl
  | reject_offer seller oid =>
    obtain ⟨offer, listing, -, -, -, -, hs'⟩ := reject_offer_eq_some h
    subst hs'
    exact Or.inl rfl
  | cancel_offer buyer oid =>
    obtain ⟨offer, listing, -, -, -, -, hs'⟩ := cancel_offer_eq_some h
    subst hs'
    exact Or.inl rfl
  | buy buyer lid =>
    obtain ⟨listing, config, sa, fa, ra, -, -, -, -, -, hs'⟩ := buy_eq_some h
    subst hs'
    rw [record_op_lookup]
    by_cases hk : (listing.asset.contract, listing.asset.token_id) = key
    · rw [if_pos hk]
      right
      exact ⟨_, _, rfl⟩
    · rw [if_neg hk]
      left
      rfl
  | accept_offer seller oid now =>
    obtain ⟨offer, listing, config, sa, fa, ra, s3, -, -, -, -, -, -, -, -,
      hr3, hs'⟩ := accept_offer_eq_some h
    obtain ⟨listing2, -, hfold⟩ := refund_listing_offers_eq_some hr3
    obtain ⟨-, -, -, -, -, -, -, -, -, -, -, fph, -⟩ :=
      refund_fold_frame listing2.payment_token (fun oid' => oid' == oid)
        ((assocGet (remove_from_active_listings
          (accept_pre s seller oid offer listing config sa fa ra)
          offer.listing_id).offers_by_listing offer.listing_id).getD [])
        (remove_from_active_listings
          (accept_pre s seller oid offer listing config sa fa ra)
          offer.listing_id)
    subst hs'
    subst hfold
    rw [record_op_lookup]
    by_cases hk : (listing.asset.contract, listing.asset.token_id) = key
    · rw [if_pos hk]
      right
      exact ⟨_, _, rfl⟩
    · rw [if_neg hk]
      left
      rw [fph]
      rfl
  | accept_counter_offer buyer cid now =>
    obtain ⟨counter, offer, listing, config, sa, fa, ra, s3, -, -, -, -, -, -,
      -, hr3, hs'⟩ := accept_counter_offer_eq_some h
    obtain ⟨listing2, -, hfold⟩ := refund_listing_offers_eq_some hr3
    obtain ⟨-, -, -, -, -, -, -, -, -, -, -, fph, -⟩ :=
      refund_fold_frame listing2.payment_token
        (fun oid' => oid' == counter.offer_id)
        ((assocGet (remove_from_active_listings
          (accept_counter_pre s buyer counter offer listing config sa fa ra)
          offer.listing_id).offers_by_listing offer.listing_id).getD [])
        (remove_from_active_listings
          (accept_counter_pre s buyer counter offer listing config sa fa ra)
          offer.listing_id)
    subst hs'
    subst hfold
    rw [record_op_lookup]
    by_cases hk : (listing.asset.contract, listing.asset.token_id) = key
    · rw [if_pos hk]
      right
      exact ⟨_, _, rfl⟩
    · rw [if_neg hk]
      left
      rw [fph]
      rfl
  | cancel_listing seller lid =>
    obtain ⟨listing, s2, -, -, -, hr2, hs'⟩ := cancel_listing_eq_some h
    obtain ⟨listing2, -, hfold⟩ := refund_listing_offers_eq_some hr2
    obtain ⟨-, -, -, -, -, -, -, -, -, -, -, fph, -⟩ :=
      refund_fold_frame listing2.payment_token (fun _ => false)
        ((assocGet (cancel_listing_pre s seller
          listing).offers_by_listing lid).getD [])
        (cancel_listing_pre s seller listing)
    subst hs'
    subst hfold
    left
    rw [fph]
    rfl

/-- Reachable states keep every asset's price history within 100 entries. -/
theorem histBound_reachable {s : MState} (h : Reachable s) :
    ∀ key : Addr × Nat, ((assocGet s.price_history key).getD []).length ≤ 100 := by
  induction h with
  | empty =>
    intro key
    simp [empty_state, assocGet]
  | step hs hstep ih =>
    intro key
    rcases apply_price_history hstep key with heq | ⟨old, p, heq⟩
    · rw [heq]
      exact ih key
    · rw [heq]
      simpa using record_price_history_le_100 old p

/-- C8: `record_price_history` appends and keeps exactly the latest 100
entries in order (truncating from the front), and on every reachable state
every asset's stored history has at most 100 entries. -/
theorem price_history_bounded (h : List Int) (p : Int) :
    record_price_history h p = (h ++ [p]).drop (h.length + 1 - 100) ∧
    (record_price_history h p).length = min (h.length + 1) 100 ∧
    (h.length < 100 → record_price_history h p = h ++ [p]) ∧
    (record_price_history h p).IsSuffix (h ++ [p]) ∧
    (∀ s, Reachable s → ∀ c tid,
      ((assocGet s.price_history (c, tid)).getD []).length ≤ 100) :=
  ⟨record_price_history_eq h p, record_price_history_length h p,
   fun hl => record_price_history_small h p hl,
   record_price_history_suffix h p,
   fun _ hs c tid => histBound_reachable hs (c, tid)⟩

/-- C8 witness: a concrete history of length 2 and the concrete reachable
state `bought_state`. -/
theorem price_history_bounded_witness :
    record_price_history [1, 2] 3 =
      ([1, 2] ++ [3]).drop (([1, 2] : List Int).length + 1 - 100) ∧
    (record_price_history [1, 2] 3).length =
      min (([1, 2] : List Int).length + 1) 100 ∧
    record_price_history [1, 2] 3 = [1, 2] ++ [3] ∧
    ((assocGet bought_state.price_history (50, 7)).getD []).length ≤ 100 :=
  ⟨(price_history_bounded [1, 2] 3).1,
   (price_history_bounded [1, 2] 3).2.1,
   (price_history_bounded [1, 2] 3).2.2.1 (by decide),
   (price_history_bounded [1, 2] 3).2.2.2.2 bought_state
     (reachable_of_trace
       [Action.init_market 1 2 250 0 0,
        Action.create_listing 3 sampleAsset 60 1000 (some 9) 500 3 0,
        Action.buy 5 1]
       empty_state bought_state Reachable.empty (by decide)) 50 7⟩

/-- Every stored offer is indexed under its listing in `offers_by_listing`
(the index used by the bulk-refund loops). -/
def OffersIndexed (s : MState) : Prop :=
  ∀ k o, assocGet s.offers k = some o →
    k ∈ (assocGet s.offers_by_listing o.listing_id).getD []

theorem offersIndexed_step {s : MState} {a : Action} {s' : MState}
    (h : apply s a = some s') (hi : OffersIndexed s) : OffersIndexed s' := by
  cases a with
  | init_market ad fr fb mn mx =>
    obtain ⟨-, -, hs'⟩ := init_market_eq_some h
    subst hs'
    exact fun k o hk => hi k o hk
  | update_config fr fb mn mx =>
    obtain ⟨cfg, cfg', -, hs'⟩ := update_config_eq_some h
    subst hs'
    exact fun k o hk => hi k o hk
  | create_listing seller asset pt price creator roy owner now =>
    simp only [apply] at h
    obtain ⟨r, hr, hs'⟩ := Option.map_eq_some'.mp h
    obtain ⟨-, -, -, hr2⟩ := create_listing_eq_some hr
    subst hr2
    subst hs'
    exact fun k o hk => hi k o hk
  | buy buyer lid =>
    obtain ⟨listing, config, sa, fa, ra, -, -, -, -, -, hs'⟩ := buy_eq_some h
    subst hs'
    exact fun k o hk => hi k o hk
  | create_offer buyer lid price e now =>
    simp only [apply] at h
    obtain ⟨r, hr, hs'⟩ := Option.map_eq_some'.mp h
    obtain ⟨listing, -, -, -, -, -, hr2⟩ := create_offer_eq_some hr
    subst hr2
    subst hs'
    intro k o hk
    have hk' : assocGet (assocSet s.offers (s.offer_count + 1)
        { offer_id := s.offer_count + 1, listing_id := lid, buyer := buyer,
          price := price, status := OfferStatus.Open, created_time := now,
          expiration_time := e }) k = some o := hk
    rw [assocGet_assocSet] at hk'
    show k ∈ (assocGet (assocSet s.offers_by_listing lid
      ((assocGet s.offers_by_listing lid).getD [] ++ [s.offer_count + 1]))
      o.listing_id).getD []
    by_cases hkn : s.offer_count + 1 = k
    · rw [if_pos hkn] at hk'
      have ho : o.listing_id = lid := by
        cases hk'
        rfl
      rw [ho, assocGet_assocSet, if_pos rfl]
      simp [hkn]
    · rw [if_neg hkn] at hk'
      have hmem := hi k o hk'
      rw [assocGet_assocSet]
      by_cases hol : lid = o.listing_id
      · rw [if_pos hol]
        subst hol
        simp only [Option.getD_some]
        exact List.mem_append_left _ hmem
      · rw [if_neg hol]
        exact hmem
  | create_counter_offer seller oid price e now =>
    simp only [apply] at h
    obtain ⟨r, hr, hs'⟩ := Option.map_eq_some'.mp h
    obtain ⟨offer, listing, ho, -, -, -, -, -, hr2⟩ :=
      create_counter_offer_eq_some hr
    subst hr2
    subst hs'
    intro k o hk
    have hk' : assocGet (assocSet s.offers oid
        ({ offer with status := OfferStatus.Countered })) k = some o := hk
    rw [assocGet_assocSet] at hk'
    show k ∈ (assocGet s.offers_by_listing o.listing_id).getD []
    by_cases hkn : oid = k
    · rw [if_pos hkn] at hk'
      subst hkn
      cases hk'
      exact hi oid offer ho
    · rw [if_neg hkn] at hk'
      exact hi k o hk'
  | reject_offer seller oid =>
    obtain ⟨offer, listing, ho, -, -, -, hs'⟩ := reject_offer_eq_some h
    subst hs'
    intro k o hk
    have hk' : assocGet (assocSet s.offers oid
        ({ offer with status := OfferStatus.Rejected })) k = some o := hk
    rw [assocGet_assocSet] at hk'
    show k ∈ (assocGet s.offers_by_listing o.listing_id).getD []
    by_cases hkn : oid = k
    · rw [if_pos hkn] at hk'
      subst hkn
      cases hk'
      exact hi oid offer ho
    · rw [if_neg hkn] at hk'
      exact hi k o hk'
  | cancel_offer buyer oid =>
    obtain ⟨offer, listing, ho, -, -, -, hs'⟩ := cancel_offer_eq_some h
    subst hs'
    intro k o hk
    have hk' : assocGet (assocSet s.offers oid
        ({ offer with status := OfferStatus.Cancelled })) k = some o := hk
    rw [assocGet_assocSet] at hk'
    show k ∈ (assocGet s.offers_by_listing o.listing_id).getD []
    by_cases hkn : oid = k
    · rw [if_pos hkn] at hk'
      subst hkn
      cases hk'
      exact hi oid offer ho
    · rw [if_neg hkn] at hk'
      exact hi k o hk'
  | accept_offer seller oid now =>
    obtain ⟨offer, listing, config, sa, fa, ra, s3, ho, -, -, -, -, -, -, -,
      hr3, hs'⟩ := accept_offer_eq_some h
    obtain ⟨listing2, -, hfold⟩ := refund_listing_offers_eq_some hr3
    subst hs'
    subst hfold
    intro k o hk
    set base := remove_from_active_listings
      (accept_pre s seller oid offer listing config sa fa ra)
      offer.listing_id with hbase
    set oids := (assocGet base.offers_by_listing offer.listing_id).getD []
      with hoids
    obtain ⟨-, -, -, -, -, -, fobl, -, -, -, -, -, -⟩ :=
      refund_fold_frame listing2.payment_token (fun oid' => oid' == oid)
        oids base
    have hk2 : assocGet (List.foldl
        (refund_step listing2.payment_token (fun oid' => oid' == oid))
        base oids).offers k = some o := hk
    have hfin : ∀ o2 : Offer,
        k ∈ (assocGet s.offers_by_listing o2.listing_id).getD [] →
        k ∈ (assocGet (List.foldl
          (refund_step listing2.payment_token (fun oid' => oid' == oid))
          base oids).offers_by_listing o2.listing_id).getD [] := by
      intro o2 hmem
      rw [fobl]
      exact hmem
    rcases refund_fold_offers listing2.payment_token (fun oid' => oid' == oid)
        oids base k with heq | ⟨o1, ho1, -, hfl⟩
    · rw [heq] at hk2
      have hk3 : assocGet (assocSet s.offers oid
          ({ offer with status := OfferStatus.Accepted })) k = some o := hk2
      rw [assocGet_assocSet] at hk3
      refine hfin o ?_
      by_cases hkn : oid = k
      · rw [if_pos hkn] at hk3
        subst hkn
        cases hk3
        exact hi oid offer ho
      · rw [if_neg hkn] at hk3
        exact hi k o hk3
    · rw [hfl] at hk2
      cases hk2
      have hk3 : assocGet (assocSet s.offers oid
          ({ offer with status := OfferStatus.Accepted })) k = some o1 := ho1
      rw [assocGet_assocSet] at hk3
      refine hfin o1 ?_
      by_cases hkn : oid = k
      · rw [if_pos hkn] at hk3
        subst hkn
        cases hk3
        exact hi oid offer ho
      · rw [if_neg hkn] at hk3
        exact hi k o1 hk3
  | accept_counter_offer buyer cid now =>
    obtain ⟨counter, offer, listing, config, sa, fa, ra, s3, -, ho, -, -, -,
      -, -, hr3, hs'⟩ := accept_counter_offer_eq_some h
    obtain ⟨listing2, -, hfold⟩ := refund_listing_offers_eq_some hr3
    subst hs'
    subst hfold
    intro k o hk
    set base := remove_from_active_listings
      (accept_counter_pre s buyer counter offer listing config sa fa ra)
      offer.listing_id with hbase
    set oids := (assocGet base.offers_by_listing offer.listing_id).getD []
      with hoids
    obtain ⟨-, -, -, -, -, -, fobl, -, -, -, -, -, -⟩ :=
      refund_fold_frame listing2.payment_token
        (fun oid' => oid' == counter.offer_id) oids base
    have hk2 : assocGet (List.foldl (refund_step listing2.payment_token
        (fun oid' => oid' == counter.offer_id)) base oids).offers k =
        some o := hk
    have hfin : ∀ o2 : Offer,
        k ∈ (assocGet s.offers_by_listing o2.listing_id).getD [] →
        k ∈ (assocGet (List.foldl (refund_step listing2.payment_token
          (fun oid' => oid' == counter.offer_id))
          base oids).offers_by_listing o2.listing_id).getD [] := by
      intro o2 hmem
      rw [fobl]
      exact hmem
    rcases refund_fold_offers listing2.payment_token
        (fun oid' => oid' == counter.offer_id) oids base k with
      heq | ⟨o1, ho1, -, hfl⟩
    · rw [heq] at hk2
      have hk3 : assocGet (assocSet s.offers counter.offer_id
          ({ offer with status := OfferStatus.Accepted })) k = some o := hk2
      rw [assocGet_assocSet] at hk3
      refine hfin o ?_
      by_cases hkn : counter.offer_id = k
      · rw [if_pos hkn] at hk3
        subst hkn
        cases hk3
        exact hi counter.offer_id offer ho
      · rw [if_neg hkn] at hk3
        exact hi k o hk3
    · rw [hfl] at hk2
      cases hk2
      have hk3 : assocGet (assocSet s.offers counter.offer_id
          ({ offer with status := OfferStatus.Accepted })) k = some o1 := ho1
      rw [assocGet_assocSet] at hk3
      refine hfin o1 ?_
      by_cases hkn : counter.offer_id = k
      · rw [if_pos hkn] at hk3
        subst hkn
        cases hk3
        exact hi counter.offer_id offer ho
      · rw [if_neg hkn] at hk3
        exact hi k o1 hk3
  | cancel_listing seller lid =>
    obtain ⟨listing, s2, -, -, -, hr2, hs'⟩ := cancel_listing_eq_some h
    obtain ⟨listing2, -, hfold⟩ := refund_listing_offers_eq_some hr2
    subst hs'
    subst hfold
    intro k o hk
    set base := cancel_listing_pre s seller listing with hbase
    set oids := (assocGet base.offers_by_listing lid).getD [] with hoids
    obtain ⟨-, -, -, -, -, -, fobl, -, -, -, -, -, -⟩ :=
      refund_fold_frame listing2.payment_token (fun _ => false) oids base
    have hk2 : assocGet (List.foldl (refund_step listing2.payment_token
        (fun _ => false)) base oids).offers k = some o := hk
    have hfin : ∀ o2 : Offer,
        k ∈ (assocGet s.offers_by_listing o2.listing_id).getD [] →
        k ∈ (assocGet (List.foldl (refund_step listing2.payment_token
          (fun _ => false)) base oids).offers_by_listing
          o2.listing_id).getD [] := by
      intro o2 hmem
      rw [fobl]
      exact hmem
    rcases refund_fold_offers listing2.payment_token (fun _ => false)
        oids base k with heq | ⟨o1, ho1, -, hfl⟩
    · rw [heq] at hk2
      exact hfin o (hi k o hk2)
    · rw [hfl] at hk2
      cases hk2
      exact hfin o1 (hi k o1 ho1)

theorem offersIndexed_reachable {s : MState} (h : Reachable s) :
    OffersIndexed s := by
  induction h with
  | empty => intro k o hk; cases hk
  | step hs hstep ih => exact offersIndexed_step hstep ih

/-- C7: `cancel_listing` fails when the caller is not the recorded seller or
the listing is not Active; on success it returns the escrowed asset to the
seller, refunds every still-Open offer on the listing in full (marking it
Cancelled) while leaving non-Open offers untouched, flips the listing to
Cancelled and erases it from the active index. -/
theorem cancel_listing_contract {s : MState} (hr : Reachable s)
    (seller : Addr) (lid : Nat) :
    (∀ listing, assocGet s.listings lid = some listing →
      listing.seller ≠ seller → cancel_listing s seller lid = none) ∧
    (∀ listing, assocGet s.listings lid = some listing →
      listing.status ≠ ListingStatus.Active →
      cancel_listing s seller lid = none) ∧
    (∀ s', cancel_listing s seller lid = some s' →
      ∃ listing,
        assocGet s.listings lid = some listing ∧ listing.seller = seller ∧
        listing.status = ListingStatus.Active ∧
        s'.asset_transfers = s.asset_transfers ++
          [{ contract := listing.asset.contract,
             token_id := listing.asset.token_id,
             src := contract_addr, dst := seller }] ∧
        (∀ k o, assocGet s.offers k = some o → o.listing_id = lid →
          (o.status = OfferStatus.Open →
            assocGet s'.offers k =
              some ({ o with status := OfferStatus.Cancelled }) ∧
            ({ token := listing.payment_token, src := contract_addr,
               dst := o.buyer, amount := o.price } : TokenTransfer) ∈
              s'.token_transfers) ∧
          (o.status ≠ OfferStatus.Open → assocGet s'.offers k = some o)) ∧
        assocGet s'.listings lid =
          some ({ listing with status := ListingStatus.Cancelled }) ∧
        s'.active_listings = s.active_listings.erase lid) := by
  refine ⟨?_, ?_, ?_⟩
  · intro listing hl hne
    unfold cancel_listing
    simp only [hl]
    rw [if_pos hne]
  · intro listing hl hst
    unfold cancel_listing
    simp only [hl]
    by_cases h1 : listing.seller = seller
    · rw [if_neg (not_not_intro h1), if_pos hst]
    · rw [if_pos h1]
  · intro s' h
    obtain ⟨listing, s2, hl, h1, h2, hr2, hs'⟩ := cancel_listing_eq_some h
    obtain ⟨listing2, hlk2, hfold⟩ := refund_listing_offers_eq_some hr2
    have hlk2' : assocGet s.listings lid = some listing2 := hlk2
    rw [hl] at hlk2'
    cases hlk2'
    subst hs'
    subst hfold
    set base := cancel_listing_pre s seller listing with hbase
    set oids := (assocGet base.offers_by_listing lid).getD [] with hoids
    obtain ⟨-, -, -, -, -, -, -, -, -, -, factive, -, fasset⟩ :=
      refund_fold_frame listing.payment_token (fun _ => false) oids base
    obtain ⟨ftl, htl⟩ :=
      refund_fold_transfers listing.payment_token (fun _ => false) oids base
    refine ⟨listing, hl, h1, h2, ?_, ?_, ?_, ?_⟩
    · show (List.foldl (refund_step listing.payment_token (fun _ => false))
        base oids).asset_transfers = _
      rw [fasset]
    · intro k o hk hkl
      have hidx := offersIndexed_reachable hr k o hk
      rw [hkl] at hidx
      constructor
      · intro hopen
        have hmem : k ∈ oids := hidx
        have hcan := refund_fold_cancels listing.payment_token
          (fun _ => false) oids base k o hmem rfl hk hopen
        exact ⟨hcan.1, hcan.2⟩
      · intro hnopen
        exact refund_fold_nonopen listing.payment_token (fun _ => false)
          oids base hk hnopen
    · exact assocGet_assocSet_self _ _ _
    · show ((List.foldl (refund_step listing.payment_token (fun _ => false))
        base oids).active_listings).erase lid = _
      rw [factive]

/-- `listed_state` with an open offer of 500 by buyer 4 on listing 1. -/
def offered_state : MState :=
  (apply_trace empty_state
    [Action.init_market 1 2 250 0 0,
     Action.create_listing 3 sampleAsset 60 1000 (some 9) 500 3 0,
     Action.create_offer 4 1 500 none 0]).getD empty_state

/-- `offered_state` after seller 3 cancels listing 1. -/
def cancelled_state : MState :=
  (cancel_listing offered_state 3 1).getD empty_state

/-- C7 witness: seller 3 cancels listing 1 of `offered_state`. -/
theorem cancel_listing_contract_witness :
    ∃ listing,
      assocGet offered_state.listings 1 = some listing ∧
      listing.seller = 3 ∧ listing.status = ListingStatus.Active ∧
      cancelled_state.asset_transfers = offered_state.asset_transfers ++
        [{ contract := listing.asset.contract,
           token_id := listing.asset.token_id,
           src := contract_addr, dst := 3 }] ∧
      (∀ k o, assocGet offered_state.offers k = some o → o.listing_id = 1 →
        (o.status = OfferStatus.Open →
          assocGet cancelled_state.offers k =
            some ({ o with status := OfferStatus.Cancelled }) ∧
          ({ token := listing.payment_token, src := contract_addr,
             dst := o.buyer, amount := o.price } : TokenTransfer) ∈
            cancelled_state.token_transfers) ∧
        (o.status ≠ OfferStatus.Open →
          assocGet cancelled_state.offers k = some o)) ∧
      assocGet cancelled_state.listings 1 =
        some ({ listing with status := ListingStatus.Cancelled }) ∧
      cancelled_state.active_listings =
        offered_state.active_listings.erase 1 :=
  (cancel_listing_contract
    (reachable_of_trace
      [Action.init_market 1 2 250 0 0,
       Action.create_listing 3 sampleAsset 60 1000 (some 9) 500 3 0,
       Action.create_offer 4 1 500 none 0]
      empty_state offered_state Reachable.empty (by decide)) 3 1).2.2
    cancelled_state (by decide)

/-- C5 (amended): when an offer or counter-offer is accepted, every *other*
offer on that listing that is Open is refunded in full and set Cancelled,
non-Open offers are untouched, afterwards no offer on that listing is Open,
and the listing is Sold. (The original claim's consequence "after any
operation that leaves a listing Sold no offer is Open" is false for `buy`,
which does not touch offers — see the counterexample.) -/
theorem accept_refunds_other_offers {s : MState} (hr : Reachable s) :
    (∀ seller oid now s', accept_offer s seller oid now = some s' →
      ∃ offer listing,
        assocGet s.offers oid = some offer ∧
        assocGet s.listings offer.listing_id = some listing ∧
        (∀ k o, k ≠ oid → assocGet s.offers k = some o →
          o.listing_id = offer.listing_id →
          (o.status = OfferStatus.Open →
            assocGet s'.offers k =
              some ({ o with status := OfferStatus.Cancelled }) ∧
            ({ token := listing.payment_token, src := contract_addr,
               dst := o.buyer, amount := o.price } : TokenTransfer) ∈
              s'.token_transfers) ∧
          (o.status ≠ OfferStatus.Open → assocGet s'.offers k = some o)) ∧
        (∀ k o, assocGet s'.offers k = some o →
          o.listing_id = offer.listing_id → o.status ≠ OfferStatus.Open) ∧
        assocGet s'.listings offer.listing_id =
          some ({ listing with status := ListingStatus.Sold })) ∧
    (∀ buyer cid now s', accept_counter_offer s buyer cid now = some s' →
      ∃ counter offer listing,
        assocGet s.counter_offers cid = some counter ∧
        assocGet s.offers counter.offer_id = some offer ∧
        assocGet s.listings offer.listing_id = some listing ∧
        (∀ k o, k ≠ counter.offer_id → assocGet s.offers k = some o →
          o.listing_id = offer.listing_id →
          (o.status = OfferStatus.Open →
            assocGet s'.offers k =
              some ({ o with status := OfferStatus.Cancelled }) ∧
            ({ token := listing.payment_token, src := contract_addr,
               dst := o.buyer, amount := o.price } : TokenTransfer) ∈
              s'.token_transfers) ∧
          (o.status ≠ OfferStatus.Open → assocGet s'.offers k = some o)) ∧
        (∀ k o, assocGet s'.offers k = some o →
          o.listing_id = offer.listing_id → o.status ≠ OfferStatus.Open) ∧
        assocGet s'.listings offer.listing_id =
          some ({ listing with status := ListingStatus.Sold })) := by
  constructor
  · intro seller oid now s' h
    obtain ⟨offer, listing, config, sa, fa, ra, s3, ho, -, -, hl, -, -, -, -,
      hr3, hs'⟩ := accept_offer_eq_some h
    obtain ⟨listing2, hlk2, hfold⟩ := refund_listing_offers_eq_some hr3
    have hlk2' : assocGet (assocSet s.listings offer.listing_id
        ({ listing with status := ListingStatus.Sold }))
        offer.listing_id = some listing2 := hlk2
    rw [assocGet_assocSet_self] at hlk2'
    cases hlk2'
    subst hs'
    subst hfold
    set base := remove_from_active_listings
      (accept_pre s seller oid offer listing config sa fa ra)
      offer.listing_id with hbase
    set oids := (assocGet base.offers_by_listing offer.listing_id).getD []
      with hoids
    obtain ⟨-, -, -, -, flistings, -, -, -, -, -, -, -, -⟩ :=
      refund_fold_frame listing.payment_token (fun oid' => oid' == oid)
        oids base
    refine ⟨offer, listing, ho, hl, ?_, ?_, ?_⟩
    · intro k o hkne hk hkl
      have hidx := offersIndexed_reachable hr k o hk
      rw [hkl] at hidx
      have hmem : k ∈ oids := hidx
      have hskip : (k == oid) = false := beq_eq_false_iff_ne.mpr hkne
      have hbk : assocGet base.offers k = assocGet s.offers k :=
        assocGet_assocSet_other _ _ (fun hh => hkne hh.symm)
      constructor
      · intro hopen
        have hcan := refund_fold_cancels listing.payment_token
          (fun oid' => oid' == oid) oids base k o hmem hskip
          (hbk.trans hk) hopen
        exact ⟨hcan.1, hcan.2⟩
      · intro hnopen
        exact refund_fold_nonopen listing.payment_token
          (fun oid' => oid' == oid) oids base (hbk.trans hk) hnopen
    · intro k o hk hkl
      have hk2 : assocGet (List.foldl
          (refund_step listing.payment_token (fun oid' => oid' == oid))
          base oids).offers k = some o := hk
      rcases refund_fold_offers listing.payment_token
          (fun oid' => oid' == oid) oids base k with heq | ⟨o1, ho1, -, hfl⟩
      · rw [heq] at hk2
        have hk3 : assocGet (assocSet s.offers oid
            ({ offer with status := OfferStatus.Accepted })) k = some o := hk2
        rw [assocGet_assocSet] at hk3
        by_cases hkn : oid = k
        · rw [if_pos hkn] at hk3
          cases hk3
          simp
        · rw [if_neg hkn] at hk3
          intro hopen
          have hidx := offersIndexed_reachable hr k o hk3
          rw [hkl] at hidx
          have hmem : k ∈ oids := hidx
          have hskip : (k == oid) = false :=
            beq_eq_false_iff_ne.mpr (fun hh => hkn hh.symm)
          have hbk : assocGet base.offers k = assocGet s.offers k :=
            assocGet_assocSet_other _ _ hkn
          have hcan := refund_fold_cancels listing.payment_token
            (fun oid' => oid' == oid) oids base k o hmem hskip
            (hbk.trans hk3) hopen
          have hcontr := (hcan.1.symm.trans heq).trans hk2
          have hst := congrArg Offer.status (Option.some.inj hcontr)
          rw [hopen] at hst
          simp at hst
      · rw [hfl] at hk2
        cases hk2
        simp
    · show assocGet (List.foldl
        (refund_step listing.payment_token (fun oid' => oid' == oid))
        base oids).listings offer.listing_id = _
      rw [flistings]
      exact assocGet_assocSet_self _ _ _
  · intro buyer cid now s' h
    obtain ⟨counter, offer, listing, config, sa, fa, ra, s3, hco, ho, -, -,
      hl, -, -, hr3, hs'⟩ := accept_counter_offer_eq_some h
    obtain ⟨listing2, hlk2, hfold⟩ := refund_listing_offers_eq_some hr3
    have hlk2' : assocGet (assocSet s.listings offer.listing_id
        ({ listing with status := ListingStatus.Sold }))
        offer.listing_id = some listing2 := hlk2
    rw [assocGet_assocSet_self] at hlk2'
    cases hlk2'
    subst hs'
    subst hfold
    set base := remove_from_active_listings
      (accept_counter_pre s buyer counter offer listing config sa fa ra)
      offer.listing_id with hbase
    set oids := (assocGet base.offers_by_listing offer.listing_id).getD []
      with hoids
    obtain ⟨-, -, -, -, flistings, -, -, -, -, -, -, -, -⟩ :=
      refund_fold_frame listing.payment_token
        (fun oid' => oid' == counter.offer_id) oids base
    refine ⟨counter, offer, listing, hco, ho, hl, ?_, ?_, ?_⟩
    · intro k o hkne hk hkl
      have hidx := offersIndexed_reachable hr k o hk
      rw [hkl] at hidx
      have hmem : k ∈ oids := hidx
      have hskip : (k == counter.offer_id) = false :=
        beq_eq_false_iff_ne.mpr hkne
      have hbk : assocGet base.offers k = assocGet s.offers k :=
        assocGet_assocSet_other _ _ (fun hh => hkne hh.symm)
      constructor
      · intro hopen
        have hcan := refund_fold_cancels listing.payment_token
          (fun oid' => oid' == counter.offer_id) oids base k o hmem hskip
          (hbk.trans hk) hopen
        exact ⟨hcan.1, hcan.2⟩
      · intro hnopen
        exact refund_fold_nonopen listing.payment_token
          (fun oid' => oid' == counter.offer_id) oids base
          (hbk.trans hk) hnopen
    · intro k o hk hkl
      have hk2 : assocGet (List.foldl (refund_step listing.payment_token
          (fun oid' => oid' == counter.offer_id)) base oids).offers k =
          some o := hk
      rcases refund_fold_offers listing.payment_token
          (fun oid' => oid' == counter.offer_id) oids base k with
        heq | ⟨o1, ho1, -, hfl⟩
      · rw [heq] at hk2
        have hk3 : assocGet (assocSet s.offers counter.offer_id
            ({ offer with status := OfferStatus.Accepted })) k = some o := hk2
        rw [assocGet_assocSet] at hk3
        by_cases hkn : counter.offer_id = k
        · rw [if_pos hkn] at hk3
          cases hk3
          simp
        · rw [if_neg hkn] at hk3
          intro hopen
          have hidx := offersIndexed_reachable hr k o hk3
          rw [hkl] at hidx
          have hmem : k ∈ oids := hidx
          have hskip : (k == counter.offer_id) = false :=
            beq_eq_false_iff_ne.mpr (fun hh => hkn hh.symm)
          have hbk : assocGet base.offers k = assocGet s.offers k :=
            assocGet_assocSet_other _ _ hkn
          have hcan := refund_fold_cancels listing.payment_token
            (fun oid' => oid' == counter.offer_id) oids base k o hmem hskip
            (hbk.trans hk3) hopen
          have hcontr := (hcan.1.symm.trans heq).trans hk2
          have hst := congrArg Offer.status (Option.some.inj hcontr)
          rw [hopen] at hst
          simp at hst
      · rw [hfl] at hk2
        cases hk2
        simp
    · show assocGet (List.foldl (refund_step listing.payment_token
        (fun oid' => oid' == counter.offer_id)) base oids).listings
        offer.listing_id = _
      rw [flistings]
      exact assocGet_assocSet_self _ _ _

/-- `listed_state` with open offers by buyer 4 (500) and buyer 6 (600) on
listing 1. -/
def two_offer_state : MState :=
  (apply_trace empty_state
    [Action.init_market 1 2 250 0 0,
     Action.create_listing 3 sampleAsset 60 1000 (some 9) 500 3 0,
     Action.create_offer 4 1 500 none 0,
     Action.create_offer 6 1 600 none 0]).getD empty_state

/-- `two_offer_state` after seller 3 accepts offer 2 (buyer 6's 600). -/
def accepted_state : MState :=
  (accept_offer two_offer_state 3 2 0).getD empty_state

/-- C5 witness: accepting offer 2 on `two_offer_state` refunds and cancels
the still-Open offer 1 and leaves the listing Sold with no Open offer. -/
theorem accept_refunds_other_offers_witness :
    ∃ offer listing,
      assocGet two_offer_state.offers 2 = some offer ∧
      assocGet two_offer_state.listings offer.listing_id = some listing ∧
      (∀ k o, k ≠ 2 → assocGet two_offer_state.offers k = some o →
        o.listing_id = offer.listing_id →
        (o.status = OfferStatus.Open →
          assocGet accepted_state.offers k =
            some ({ o with status := OfferStatus.Cancelled }) ∧
          ({ token := listing.payment_token, src := contract_addr,
             dst := o.buyer, amount := o.price } : TokenTransfer) ∈
            accepted_state.token_transfers) ∧
        (o.status ≠ OfferStatus.Open →
          assocGet accepted_state.offers k = some o)) ∧
      (∀ k o, assocGet accepted_state.offers k = some o →
        o.listing_id = offer.listing_id → o.status ≠ OfferStatus.Open) ∧
      assocGet accepted_state.listings offer.listing_id =
        some ({ listing with status := ListingStatus.Sold }) :=
  (accept_refunds_other_offers
    (reachable_of_trace
      [Action.init_market 1 2 250 0 0,
       Action.create_listing 3 sampleAsset 60 1000 (some 9) 500 3 0,
       Action.create_offer 4 1 500 none 0,
       Action.create_offer 6 1 600 none 0]
      empty_state two_offer_state Reachable.empty (by decide))).1
    3 2 0 accepted_state (by decide)

/-- C9 (amended): in every settlement path the royalty leg goes to the
creator exactly when one is recorded and the amount is positive; with no
creator nothing is disbursed for it, so over `buy` the contract's net intake
across the emitted legs is exactly `royalty_amount`, over
`create_offer` + `accept_offer` likewise (escrow `price` in, then
`seller + fee` out of a pot of `offer.price`), while in
`accept_counter_offer` the net intake of the settlement legs is
`royalty_amount + max(diff, 0) - offer.price - counter.price` — i.e. the
royalty is *not* retained there (see the counterexample). -/
theorem royalty_leg_policy (s : MState) :
    (∀ buyer lid price e now r,
      create_offer s buyer lid price e now = some r →
      buyer ≠ contract_addr →
      ∃ listing, assocGet s.listings lid = some listing ∧
        r.2.token_transfers = s.token_transfers ++
          [{ token := listing.payment_token, src := buyer,
             dst := contract_addr, amount := price }] ∧
        net_in contract_addr
          [{ token := listing.payment_token, src := buyer,
             dst := contract_addr, amount := price }] = price) ∧
    (∀ buyer lid s', buy s buyer lid = some s' → buyer ≠ contract_addr →
      ∃ listing config sa fa ra,
        assocGet s.listings lid = some listing ∧ s.config = some config ∧
        calculate_payouts listing.price config.fee_bps listing.royalty_bps =
          some (sa, fa, ra) ∧
        sa = listing.price - fa - ra ∧
        (∀ c, listing.creator = some c → 0 < ra →
          ({ token := listing.payment_token, src := contract_addr, dst := c,
             amount := ra } : TokenTransfer) ∈ s'.token_transfers) ∧
        (listing.creator = none →
          s'.token_transfers = s.token_transfers ++
            ([{ token := listing.payment_token, src := buyer,
                dst := contract_addr, amount := listing.price }] ++
             payout_legs listing.payment_token listing.seller
               config.fee_recipient none sa fa ra) ∧
          (listing.seller ≠ contract_addr →
           config.fee_recipient ≠ contract_addr → 0 ≤ fa →
           net_in contract_addr
             ([{ token := listing.payment_token, src := buyer,
                 dst := contract_addr, amount := listing.price }] ++
              payout_legs listing.payment_token listing.seller
                config.fee_recipient none sa fa ra) = ra))) ∧
    (∀ seller oid now s', accept_offer s seller oid now = some s' →
      ∃ offer listing config sa fa ra tl,
        assocGet s.offers oid = some offer ∧
        assocGet s.listings offer.listing_id = some listing ∧
        s.config = some config ∧
        calculate_payouts offer.price config.fee_bps listing.royalty_bps =
          some (sa, fa, ra) ∧
        sa = offer.price - fa - ra ∧
        s'.token_transfers = s.token_transfers ++
          payout_legs listing.payment_token seller config.fee_recipient
            listing.creator sa fa ra ++ tl ∧
        (∀ c, listing.creator = some c → 0 < ra →
          ({ token := listing.payment_token, src := contract_addr, dst := c,
             amount := ra } : TokenTransfer) ∈ s'.token_transfers) ∧
        (listing.creator = none → seller ≠ contract_addr →
         config.fee_recipient ≠ contract_addr → 0 ≤ fa →
         net_in contract_addr
           (payout_legs listing.payment_token seller config.fee_recipient
             none sa fa ra) = ra - offer.price)) ∧
    (∀ buyer cid now s',
      accept_counter_offer s buyer cid now = some s' →
      buyer ≠ contract_addr →
      ∃ counter offer listing config sa fa ra tl,
        assocGet s.counter_offers cid = some counter ∧
        assocGet s.offers counter.offer_id = some offer ∧
        assocGet s.listings offer.listing_id = some listing ∧
        s.config = some config ∧
        calculate_payouts counter.price config.fee_bps listing.royalty_bps =
          some (sa, fa, ra) ∧
        sa = counter.price - fa - ra ∧
        s'.token_transfers = s.token_transfers ++
          ([{ token := listing.payment_token, src := contract_addr,
              dst := buyer, amount := offer.price }] ++
           (if counter.price - offer.price > 0 then
             [{ token := listing.payment_token, src := buyer,
                dst := contract_addr,
                amount := counter.price - offer.price }]
            else []) ++
           payout_legs listing.payment_token counter.seller
             config.fee_recipient listing.creator sa fa ra) ++ tl ∧
        (∀ c, listing.creator = some c → 0 < ra →
          ({ token := listing.payment_token, src := contract_addr, dst := c,
             amount := ra } : TokenTransfer) ∈ s'.token_transfers) ∧
        (listing.creator = none →
         counter.seller ≠ contract_addr →
         config.fee_recipient ≠ contract_addr → 0 ≤ fa →
         net_in contract_addr
           ([{ token := listing.payment_token, src := contract_addr,
               dst := buyer, amount := offer.price }] ++
            (if counter.price - offer.price > 0 then
              [{ token := listing.payment_token, src := buyer,
                 dst := contract_addr,
                 amount := counter.price - offer.price }]
             else []) ++
            payout_legs listing.payment_token counter.seller
              config.fee_recipient none sa fa ra) =
           ra + (if counter.price - offer.price > 0 then
             counter.price - offer.price else 0) -
             offer.price - counter.price)) := by
  refine ⟨?_, ?_, ?_, ?_⟩
  · intro buyer lid price e now r h hb
    obtain ⟨listing, hl, -, -, -, -, hr2⟩ := create_offer_eq_some h
    subst hr2
    refine ⟨listing, hl, rfl, ?_⟩
    rw [net_in_single]
    simp [hb]
  · intro buyer lid s' h hb
    obtain ⟨listing, config, sa, fa, ra, hl, -, -, hc, hp, hs'⟩ :=
      buy_eq_some h
    obtain ⟨-, -, hsa⟩ := calculate_payouts_inv hp
    subst hs'
    refine ⟨listing, config, sa, fa, ra, hl, hc, hp, hsa, ?_, ?_⟩
    · intro c hcr hra
      refine List.mem_append_right _ (List.mem_append_right _ ?_)
      rw [hcr]
      exact payout_legs_creator_mem _ _ _ c sa fa ra hra
    · intro hcr
      constructor
      · show s.token_transfers ++
          ([{ token := listing.payment_token, src := buyer,
              dst := contract_addr, amount := listing.price }] ++
           payout_legs listing.payment_token listing.seller
             config.fee_recipient listing.creator sa fa ra) = _
        rw [hcr]
      · intro hsd hfr hfa
        rw [net_in_append, net_in_single,
          net_in_payout_legs_no_creator _ _ _ _ _ _ hsd hfr]
        by_cases h0 : 0 < fa
        · rw [if_pos h0]
          simp only [hb, if_neg, if_pos rfl, if_false]
          simp [hb]
          omega
        · rw [if_neg h0]
          simp [hb]
          omega
  · intro seller oid now s' h
    obtain ⟨offer, listing, config, sa, fa, ra, s3, ho, -, -, hl, -, -, hc,
      hp, hr3, hs'⟩ := accept_offer_eq_some h
    obtain ⟨-, -, hsa⟩ := calculate_payouts_inv hp
    obtain ⟨listing2, -, hfold⟩ := refund_listing_offers_eq_some hr3
    subst hs'
    subst hfold
    set base := remove_from_active_listings
      (accept_pre s seller oid offer listing config sa fa ra)
      offer.listing_id with hbase
    set oids := (assocGet base.offers_by_listing offer.listing_id).getD []
      with hoids
    obtain ⟨tl, htl⟩ := refund_fold_transfers listing2.payment_token
      (fun oid' => oid' == oid) oids base
    refine ⟨offer, listing, config, sa, fa, ra, tl, ho, hl, hc, hp, hsa,
      ?_, ?_, ?_⟩
    · show (List.foldl (refund_step listing2.payment_token
        (fun oid' => oid' == oid)) base oids).token_transfers = _
      rw [htl]
      rfl
    · intro c hcr hra
      have hmem : ({ token := listing.payment_token, src := contract_addr,
                     dst := c, amount := ra } : TokenTransfer) ∈
          payout_legs listing.payment_token seller config.fee_recipient
            listing.creator sa fa ra := by
        rw [hcr]
        exact payout_legs_creator_mem _ _ _ c sa fa ra hra
      show _ ∈ (List.foldl (refund_step listing2.payment_token
        (fun oid' => oid' == oid)) base oids).token_transfers
      rw [htl]
      exact List.mem_append_left _ (List.mem_append_right _ hmem)
    · intro hcr hsd hfr hfa
      rw [net_in_payout_legs_no_creator _ _ _ _ _ _ hsd hfr]
      by_cases h0 : 0 < fa
      · rw [if_pos h0]
        omega
      · rw [if_neg h0]
        omega
  · intro buyer cid now s' h hb
    obtain ⟨counter, offer, listing, config, sa, fa, ra, s3, hco, ho, -, -,
      hl, hc, hp, hr3, hs'⟩ := accept_counter_offer_eq_some h
    obtain ⟨-, -, hsa⟩ := calculate_payouts_inv hp
    obtain ⟨listing2, -, hfold⟩ := refund_listing_offers_eq_some hr3
    subst hs'
    subst hfold
    set base := remove_from_active_listings
      (accept_counter_pre s buyer counter offer listing config sa fa ra)
      offer.listing_id with hbase
    set oids := (assocGet base.offers_by_listing offer.listing_id).getD []
      with hoids
    obtain ⟨tl, htl⟩ := refund_fold_transfers listing2.payment_token
      (fun oid' => oid' == counter.offer_id) oids base
    refine ⟨counter, offer, listing, config, sa, fa, ra, tl, hco, ho, hl, hc,
      hp, hsa, ?_, ?_, ?_⟩
    · show (List.foldl (refund_step listing2.payment_token
        (fun oid' => oid' == counter.offer_id)) base oids).token_transfers = _
      have hbt : base.token_transfers = s.token_transfers ++
          [{ token := listing.payment_token, src := contract_addr,
             dst := buyer, amount := offer.price }] ++
          (if counter.price - offer.price > 0 then
            [{ token := listing.payment_token, src := buyer,
               dst := contract_addr, amount := counter.price - offer.price }]
           else []) ++
          payout_legs listing.payment_token counter.seller
            config.fee_recipient listing.creator sa fa ra := rfl
      rw [htl, hbt]
      simp [List.append_assoc]
    · intro c hcr hra
      have hmem : ({ token := listing.payment_token, src := contract_addr,
                     dst := c, amount := ra } : TokenTransfer) ∈
          payout_legs listing.payment_token counter.seller
            config.fee_recipient listing.creator sa fa ra := by
        rw [hcr]
        exact payout_legs_creator_mem _ _ _ c sa fa ra hra
      show _ ∈ (List.foldl (refund_step listing2.payment_token
        (fun oid' => oid' == counter.offer_id)) base oids).token_transfers
      rw [htl]
      exact List.mem_append_left _ (List.mem_append_right _ hmem)
    · intro hcr hsd hfr hfa
      rw [net_in_append, net_in_append, net_in_single,
        net_in_payout_legs_no_creator _ _ _ _ _ _ hsd hfr]
      by_cases hd : counter.price - offer.price > 0
      · rw [if_pos hd, if_pos hd, net_in_single]
        by_cases h0 : 0 < fa
        · rw [if_pos h0]
          simp [hb]
          omega
        · rw [if_neg h0]
          simp [hb]
          omega
      · rw [if_neg hd, if_neg hd]
        simp only [net_in, List.foldl_nil]
        by_cases h0 : 0 < fa
        · rw [if_pos h0]
          simp [hb]
          omega
        · rw [if_neg h0]
          simp [hb]
          omega

/-- The marketplace after `initialize` (fee 250 bps) and one listing with
*no* creator and royalty 500 bps. -/
def listed_none_state : MState :=
  (apply_trace empty_state
    [Action.init_market 1 2 250 0 0,
     Action.create_listing 3 sampleAsset 60 1000 none 500 3 0]).getD
    empty_state

/-- `listed_none_state` after buyer 5 buys listing 1. -/
def bought_none_state : MState :=
  (buy listed_none_state 5 1).getD empty_state

/-- C9 witness: `buy` on the creator-less listing of `listed_none_state`. -/
theorem royalty_leg_policy_witness :
    ∃ listing config sa fa ra,
      assocGet listed_none_state.listings 1 = some listing ∧
      listed_none_state.config = some config ∧
      calculate_payouts listing.price config.fee_bps listing.royalty_bps =
        some (sa, fa, ra) ∧
      sa = listing.price - fa - ra ∧
      (∀ c, listing.creator = some c → 0 < ra →
        ({ token := listing.payment_token, src := contract_addr, dst := c,
           amount := ra } : TokenTransfer) ∈
          bought_none_state.token_transfers) ∧
      (listing.creator = none →
        bought_none_state.token_transfers =
          listed_none_state.token_transfers ++
          ([{ token := listing.payment_token, src := 5,
              dst := contract_addr, amount := listing.price }] ++
           payout_legs listing.payment_token listing.seller
             config.fee_recipient none sa fa ra) ∧
        (listing.seller ≠ contract_addr →
         config.fee_recipient ≠ contract_addr → 0 ≤ fa →
         net_in contract_addr
           ([{ token := listing.payment_token, src := 5,
               dst := contract_addr, amount := listing.price }] ++
            payout_legs listing.payment_token listing.seller
              config.fee_recipient none sa fa ra) = ra)) :=
  (royalty_leg_policy listed_none_state).2.1 5 1 bought_none_state
    (by decide) (by decide)

/-- Stored offer ids never exceed the offer counter. -/
def OffersKeyBound (s : MState) : Prop :=
  ∀ k o, assocGet s.offers k = some o → k ≤ s.offer_count

/-- Counter-offers point at offer ids within the counter. -/
def CounterParentBound (s : MState) : Prop :=
  ∀ p ∈ s.counter_offers, (p.2 : CounterOffer).offer_id ≤ s.offer_count

/-- A counter-offer's parent offer is Countered or (already) Accepted. -/
def CounterParentStatus (s : MState) : Prop :=
  ∀ p ∈ s.counter_offers, ∀ o,
    assocGet s.offers (p.2 : CounterOffer).offer_id = some o →
    o.status = OfferStatus.Countered ∨ o.status = OfferStatus.Accepted

/-- Inductive invariant of initialize-first executions. -/
def InvI (s : MState) : Prop :=
  s.config.isSome = true ∧ OffersKeyBound s ∧ CounterParentBound s ∧
    CounterParentStatus s

theorem invI_step {s : MState} {a : Action} {s' : MState}
    (hstep : apply s a = some s') (hv : InvI s) : InvI s' := by
  obtain ⟨hcfg, hkb, hcb, hcs⟩ := hv
  cases a with
  | init_market ad fr fb mn mx =>
    obtain ⟨hnone, -, -⟩ := init_market_eq_some hstep
    rw [hnone] at hcfg
    cases hcfg
  | update_config fr fb mn mx =>
    obtain ⟨cfg, cfg', -, hs'⟩ := update_config_eq_some hstep
    subst hs'
    exact ⟨rfl, hkb, hcb, hcs⟩
  | create_listing seller asset pt price creator roy owner now =>
    simp only [apply] at hstep
    obtain ⟨r, hr, hs'⟩ := Option.map_eq_some'.mp hstep
    obtain ⟨-, -, -, hr2⟩ := create_listing_eq_some hr
    subst hr2
    subst hs'
    exact ⟨hcfg, hkb, hcb, hcs⟩
  | buy buyer lid =>
    obtain ⟨listing, config, sa, fa, ra, -, -, -, -, -, hs'⟩ :=
      buy_eq_some hstep
    subst hs'
    exact ⟨hcfg, hkb, hcb, hcs⟩
  | create_offer buyer lid price e now =>
    simp only [apply] at hstep
    obtain ⟨r, hr, hs'⟩ := Option.map_eq_some'.mp hstep
    obtain ⟨listing, -, -, -, -, -, hr2⟩ := create_offer_eq_some hr
    subst hr2
    subst hs'
    refine ⟨hcfg, ?_, ?_, ?_⟩
    · intro k o hk
      have hk' : assocGet (assocSet s.offers (s.offer_count + 1)
          { offer_id := s.offer_count + 1, listing_id := lid, buyer := buyer,
            price := price, status := OfferStatus.Open, created_time := now,
            expiration_time := e }) k = some o := hk
      rw [assocGet_assocSet] at hk'
      show k ≤ s.offer_count + 1
      by_cases hkn : s.offer_count + 1 = k
      · omega
      · rw [if_neg hkn] at hk'
        have := hkb k o hk'
        omega
    · intro p hp
      have := hcb p hp
      show (p.2 : CounterOffer).offer_id ≤ s.offer_count + 1
      omega
    · intro p hp o hk
      have hbound := hcb p hp
      have hne : s.offer_count + 1 ≠ (p.2 : CounterOffer).offer_id := by
        omega
      have hk' : assocGet (assocSet s.offers (s.offer_count + 1)
          { offer_id := s.offer_count + 1, listing_id := lid, buyer := buyer,
            price := price, status := OfferStatus.Open, created_time := now,
            expiration_time := e }) (p.2 : CounterOffer).offer_id = some o := hk
      rw [assocGet_assocSet_other _ _ hne] at hk'
      exact hcs p hp o hk'
  | reject_offer seller oid =>
    obtain ⟨offer, listing, ho, hopen, -, -, hs'⟩ := reject_offer_eq_some hstep
    subst hs'
    refine ⟨hcfg, ?_, hcb, ?_⟩
    · intro k o hk
      have hk' : assocGet (assocSet s.offers oid
          ({ offer with status := OfferStatus.Rejected })) k = some o := hk
      rw [assocGet_assocSet] at hk'
      show k ≤ s.offer_count
      by_cases hkn : oid = k
      · subst hkn
        exact hkb oid offer ho
      · rw [if_neg hkn] at hk'
        exact hkb k o hk'
    · intro p hp o hk
      have hk' : assocGet (assocSet s.offers oid
          ({ offer with status := OfferStatus.Rejected }))
          (p.2 : CounterOffer).offer_id = some o := hk
      rw [assocGet_assocSet] at hk'
      by_cases hkn : oid = (p.2 : CounterOffer).offer_id
      · rcases hcs p hp offer (by rw [← hkn]; exact ho) with hst | hst <;>
          rw [hopen] at hst <;> cases hst
      · rw [if_neg hkn] at hk'
        exact hcs p hp o hk'
  | cancel_offer buyer oid =>
    obtain ⟨offer, listing, ho, -, hopen, -, hs'⟩ := cancel_offer_eq_some hstep
    subst hs'
    refine ⟨hcfg, ?_, hcb, ?_⟩
    · intro k o hk
      have hk' : assocGet (assocSet s.offers oid
          ({ offer with status := OfferStatus.Cancelled })) k = some o := hk
      rw [assocGet_assocSet] at hk'
      show k ≤ s.offer_count
      by_cases hkn : oid = k
      · subst hkn
        exact hkb oid offer ho
      · rw [if_neg hkn] at hk'
        exact hkb k o hk'
    · intro p hp o hk
      have hk' : assocGet (assocSet s.offers oid
          ({ offer with status := OfferStatus.Cancelled }))
          (p.2 : CounterOffer).offer_id = some o := hk
      rw [assocGet_assocSet] at hk'
      by_cases hkn : oid = (p.2 : CounterOffer).offer_id
      · rcases hcs p hp offer (by rw [← hkn]; exact ho) with hst | hst <;>
          rw [hopen] at hst <;> cases hst
      · rw [if_neg hkn] at hk'
        exact hcs p hp o hk'
  | create_counter_offer seller oid price e now =>
    simp only [apply] at hstep
    obtain ⟨r, hr, hs'⟩ := Option.map_eq_some'.mp hstep
    obtain ⟨offer, listing, ho, hopen, -, -, -, -, hr2⟩ :=
      create_counter_offer_eq_some hr
    subst hr2
    subst hs'
    refine ⟨hcfg, ?_, ?_, ?_⟩
    · intro k o hk
      have hk' : assocGet (assocSet s.offers oid
          ({ offer with status := OfferStatus.Countered })) k = some o := hk
      rw [assocGet_assocSet] at hk'
      show k ≤ s.offer_count
      by_cases hkn : oid = k
      · subst hkn
        exact hkb oid offer ho
      · rw [if_neg hkn] at hk'
        exact hkb k o hk'
    · intro p hp
      show (p.2 : CounterOffer).offer_id ≤ s.offer_count
      have hp' : p ∈ assocSet s.counter_offers (s.counter_offer_count + 1)
          { counter_offer_id := s.counter_offer_count + 1, offer_id := oid,
            seller := seller, price := price, created_time := now,
            expiration_time := e } := hp
      rcases mem_assocSet hp' with hnew | hold
      · subst hnew
        exact hkb oid offer ho
      · exact hcb p hold
    · intro p hp o hk
      have hp' : p ∈ assocSet s.counter_offers (s.counter_offer_count + 1)
          { counter_offer_id := s.counter_offer_count + 1, offer_id := oid,
            seller := seller, price := price, created_time := now,
            expiration_time := e } := hp
      have hk' : assocGet (assocSet s.offers oid
          ({ offer with status := OfferStatus.Countered }))
          (p.2 : CounterOffer).offer_id = some o := hk
      rw [assocGet_assocSet] at hk'
      rcases mem_assocSet hp' with hnew | hold
      · subst hnew
        rw [if_pos rfl] at hk'
        cases hk'
        left
        rfl
      · by_cases hkn : oid = (p.2 : CounterOffer).offer_id
        · rw [if_pos hkn] at hk'
          cases hk'
          left
          rfl
        · rw [if_neg hkn] at hk'
          exact hcs p hold o hk'
  | accept_offer seller oid now =>
    obtain ⟨offer, listing, config, sa, fa, ra, s3, ho, hopen, -, -, -, -,
      -, -, hr3, hs'⟩ := accept_offer_eq_some hstep
    obtain ⟨listing2, -, hfold⟩ := refund_listing_offers_eq_some hr3
    subst hs'
    subst hfold
    set base := remove_from_active_listings
      (accept_pre s seller oid offer listing config sa fa ra)
      offer.listing_id with hbase
    set oids := (assocGet base.offers_by_listing offer.listing_id).getD []
      with hoids
    obtain ⟨fcfg, -, foc, -, -, fco, -, -, -, -, -, -, -⟩ :=
      refund_fold_frame listing2.payment_token (fun oid' => oid' == oid)
        oids base
    have hbasefacts : ∀ (q : Nat) (o : Offer), assocGet base.offers q = some o →
        (q = oid ∧ o = { offer with status := OfferStatus.Accepted }) ∨
        (q ≠ oid ∧ assocGet s.offers q = some o) := by
      intro q o hq
      have hq' : assocGet (assocSet s.offers oid
          ({ offer with status := OfferStatus.Accepted })) q = some o := hq
      rw [assocGet_assocSet] at hq'
      by_cases hkn : oid = q
      · rw [if_pos hkn] at hq'
        cases hq'
        exact Or.inl ⟨hkn.symm, rfl⟩
      · rw [if_neg hkn] at hq'
        exact Or.inr ⟨fun hh => hkn hh.symm, hq'⟩
    refine ⟨?_, ?_, ?_, ?_⟩
    · show (List.foldl (refund_step listing2.payment_token
        (fun oid' => oid' == oid)) base oids).config.isSome = true
      rw [fcfg]
      exact hcfg
    · intro k o hk
      show k ≤ (List.foldl (refund_step listing2.payment_token
        (fun oid' => oid' == oid)) base oids).offer_count
      rw [foc]
      have hk2 : assocGet (List.foldl (refund_step listing2.payment_token
          (fun oid' => oid' == oid)) base oids).offers k = some o := hk
      rcases refund_fold_offers listing2.payment_token
          (fun oid' => oid' == oid) oids base k with heq | ⟨o1, ho1, -, -⟩
      · rw [heq] at hk2
        rcases hbasefacts k o hk2 with ⟨hq, -⟩ | ⟨-, hq⟩
        · rw [hq]
          exact hkb oid offer ho
        · exact hkb k o hq
      · rcases hbasefacts k o1 ho1 with ⟨hq, -⟩ | ⟨-, hq⟩
        · rw [hq]
          exact hkb oid offer ho
        · exact hkb k o1 hq
    · intro p hp
      show (p.2 : CounterOffer).offer_id ≤ (List.foldl
        (refund_step listing2.payment_token (fun oid' => oid' == oid))
        base oids).offer_count
      rw [foc]
      have hp' : p ∈ s.counter_offers := by
        have hp2 : p ∈ (List.foldl (refund_step listing2.payment_token
            (fun oid' => oid' == oid)) base oids).counter_offers := hp
        rw [fco] at hp2
        exact hp2
      exact hcb p hp'
    · intro p hp o hk
      have hp' : p ∈ s.counter_offers := by
        have hp2 : p ∈ (List.foldl (refund_step listing2.payment_token
            (fun oid' => oid' == oid)) base oids).counter_offers := hp
        rw [fco] at hp2
        exact hp2
      have hk2 : assocGet (List.foldl (refund_step listing2.payment_token
          (fun oid' => oid' == oid)) base oids).offers
          (p.2 : CounterOffer).offer_id = some o := hk
      rcases refund_fold_offers listing2.payment_token
          (fun oid' => oid' == oid) oids base (p.2 : CounterOffer).offer_id
        with heq | ⟨o1, ho1, hopen1, hfl⟩
      · rw [heq] at hk2
        rcases hbasefacts _ o hk2 with ⟨-, hacc⟩ | ⟨-, hq⟩
        · subst hacc
          right
          rfl
        · exact hcs p hp' o hq
      · rcases hbasefacts _ o1 ho1 with ⟨-, hacc⟩ | ⟨-, hq⟩
        · subst hacc
          cases hopen1
        · rcases hcs p hp' o1 hq with hst | hst <;>
            rw [hopen1] at hst <;> cases hst
  | accept_counter_offer buyer cid now =>
    obtain ⟨counter, offer, listing, config, sa, fa, ra, s3, hco, ho, -, -,
      -, -, -, hr3, hs'⟩ := accept_counter_offer_eq_some hstep
    obtain ⟨listing2, -, hfold⟩ := refund_listing_offers_eq_some hr3
    subst hs'
    subst hfold
    set base := remove_from_active_listings
      (accept_counter_pre s buyer counter offer listing config sa fa ra)
      offer.listing_id with hbase
    set oids := (assocGet base.offers_by_listing offer.listing_id).getD []
      with hoids
    obtain ⟨fcfg, -, foc, -, -, fco, -, -, -, -, -, -, -⟩ :=
      refund_fold_frame listing2.payment_token
        (fun oid' => oid' == counter.offer_id) oids base
    have hbasefacts : ∀ (q : Nat) (o : Offer), assocGet base.offers q = some o →
        (q = counter.offer_id ∧
          o = { offer with status := OfferStatus.Accepted }) ∨
        (q ≠ counter.offer_id ∧ assocGet s.offers q = some o) := by
      intro q o hq
      have hq' : assocGet (assocSet s.offers counter.offer_id
          ({ offer with status := OfferStatus.Accepted })) q = some o := hq
      rw [assocGet_assocSet] at hq'
      by_cases hkn : counter.offer_id = q
      · rw [if_pos hkn] at hq'
        cases hq'
        exact Or.inl ⟨hkn.symm, rfl⟩
      · rw [if_neg hkn] at hq'
        exact Or.inr ⟨fun hh => hkn hh.symm, hq'⟩
    refine ⟨?_, ?_, ?_, ?_⟩
    · show (List.foldl (refund_step listing2.payment_token
        (fun oid' => oid' == counter.offer_id)) base oids).config.isSome = true
      rw [fcfg]
      exact hcfg
    · intro k o hk
      show k ≤ (List.foldl (refund_step listing2.payment_token
        (fun oid' => oid' == counter.offer_id)) base oids).offer_count
      rw [foc]
      have hk2 : assocGet (List.foldl (refund_step listing2.payment_token
          (fun oid' => oid' == counter.offer_id)) base oids).offers k =
          some o := hk
      rcases refund_fold_offers listing2.payment_token
          (fun oid' => oid' == counter.offer_id) oids base k with
        heq | ⟨o1, ho1, -, -⟩
      · rw [heq] at hk2
        rcases hbasefacts k o hk2 with ⟨hq, -⟩ | ⟨-, hq⟩
        · rw [hq]
          exact hkb counter.offer_id offer ho
        · exact hkb k o hq
      · rcases hbasefacts k o1 ho1 with ⟨hq, -⟩ | ⟨-, hq⟩
        · rw [hq]
          exact hkb counter.offer_id offer ho
        · exact hkb k o1 hq
    · intro p hp
      show (p.2 : CounterOffer).offer_id ≤ (List.foldl
        (refund_step listing2.payment_token
          (fun oid' => oid' == counter.offer_id)) base oids).offer_count
      rw [foc]
      have hp' : p ∈ s.counter_offers := by
        have hp2 : p ∈ (List.foldl (refund_step listing2.payment_token
            (fun oid' => oid' == counter.offer_id)) base
            oids).counter_offers := hp
        rw [fco] at hp2
        exact hp2
      exact hcb p hp'
    · intro p hp o hk
      have hp' : p ∈ s.counter_offers := by
        have hp2 : p ∈ (List.foldl (refund_step listing2.payment_token
            (fun oid' => oid' == counter.offer_id)) base
            oids).counter_offers := hp
        rw [fco] at hp2
        exact hp2
      have hk2 : assocGet (List.foldl (refund_step listing2.payment_token
          (fun oid' => oid' == counter.offer_id)) base oids).offers
          (p.2 : CounterOffer).offer_id = some o := hk
      rcases refund_fold_offers listing2.payment_token
          (fun oid' => oid' == counter.offer_id) oids base
          (p.2 : CounterOffer).offer_id with heq | ⟨o1, ho1, hopen1, hfl⟩
      · rw [heq] at hk2
        rcases hbasefacts _ o hk2 with ⟨-, hacc⟩ | ⟨-, hq⟩
        · subst hacc
          right
          rfl
        · exact hcs p hp' o hq
      · rcases hbasefacts _ o1 ho1 with ⟨-, hacc⟩ | ⟨-, hq⟩
        · subst hacc
          cases hopen1
        · rcases hcs p hp' o1 hq with hst | hst <;>
            rw [hopen1] at hst <;> cases hst
  | cancel_listing seller lid =>
    obtain ⟨listing, s2, -, -, -, hr2, hs'⟩ := cancel_listing_eq_some hstep
    obtain ⟨listing2, -, hfold⟩ := refund_listing_offers_eq_some hr2
    subst hs'
    subst hfold
    set base := cancel_listing_pre s seller listing with hbase
    set oids := (assocGet base.offers_by_listing lid).getD [] with hoids
    obtain ⟨fcfg, -, foc, -, -, fco, -, -, -, -, -, -, -⟩ :=
      refund_fold_frame listing2.payment_token (fun _ => false) oids base
    refine ⟨?_, ?_, ?_, ?_⟩
    · show (List.foldl (refund_step listing2.payment_token (fun _ => false))
        base oids).config.isSome = true
      rw [fcfg]
      exact hcfg
    · intro k o hk
      show k ≤ (List.foldl (refund_step listing2.payment_token
        (fun _ => false)) base oids).offer_count
      rw [foc]
      have hk2 : assocGet (List.foldl (refund_step listing2.payment_token
          (fun _ => false)) base oids).offers k = some o := hk
      rcases refund_fold_offers listing2.payment_token (fun _ => false)
          oids base k with heq | ⟨o1, ho1, -, -⟩
      · rw [heq] at hk2
        exact hkb k o hk2
      · exact hkb k o1 ho1
    · intro p hp
      show (p.2 : CounterOffer).offer_id ≤ (List.foldl
        (refund_step listing2.payment_token (fun _ => false))
        base oids).offer_count
      rw [foc]
      have hp' : p ∈ s.counter_offers := by
        have hp2 : p ∈ (List.foldl (refund_step listing2.payment_token
            (fun _ => false)) base oids).counter_offers := hp
        rw [fco] at hp2
        exact hp2
      exact hcb p hp'
    · intro p hp o hk
      have hp' : p ∈ s.counter_offers := by
        have hp2 : p ∈ (List.foldl (refund_step listing2.payment_token
            (fun _ => false)) base oids).counter_offers := hp
        rw [fco] at hp2
        exact hp2
      have hk2 : assocGet (List.foldl (refund_step listing2.payment_token
          (fun _ => false)) base oids).offers
          (p.2 : CounterOffer).offer_id = some o := hk
      rcases refund_fold_offers listing2.payment_token (fun _ => false)
          oids base (p.2 : CounterOffer).offer_id with
        heq | ⟨o1, ho1, hopen1, hfl⟩
      · rw [heq] at hk2
        exact hcs p hp' o hk2
      · rcases hcs p hp' o1 ho1 with hst | hst <;>
          rw [hopen1] at hst <;> cases hst

theorem invI_reachableI {s : MState} (h : ReachableI s) : InvI s := by
  induction h with
  | base hinit =>
    obtain ⟨-, -, hs0⟩ := init_market_eq_some hinit
    subst hs0
    refine ⟨rfl, ?_, ?_, ?_⟩
    · intro k o hk
      cases hk
    · intro p hp
      cases hp
    · intro p hp o hk
      cases hp
  | step hs hstep ih => exact invI_step hstep ih

/-- The transitions the spec allows for the status stored under one offer id
in a single step: unchanged; Open to one of the four closed statuses; or
Countered to Accepted, and that only through acceptance of a counter-offer
whose parent is this offer. -/
def OfferTransition (s : MState) (a : Action) (oid : Nat)
    (st st' : OfferStatus) : Prop :=
  st' = st ∨
  (st = OfferStatus.Open ∧
    (st' = OfferStatus.Accepted ∨ st' = OfferStatus.Rejected ∨
     st' = OfferStatus.Cancelled ∨ st' = OfferStatus.Countered)) ∨
  (st = OfferStatus.Countered ∧ st' = OfferStatus.Accepted ∧
    ∃ buyer cid now counter,
      a = Action.accept_counter_offer buyer cid now ∧
      assocGet s.counter_offers cid = some counter ∧
      counter.offer_id = oid)

/-- C2 (amended to initialize-first executions): on every state reachable
with `initialize` as the first call, each public operation moves the status
stored under an offer id only along `OfferTransition`, and a status that is
Accepted, Rejected or Cancelled never changes again. (As literally stated
over all reachable states the claim fails: the contract also works before
`initialize`, whose counter reset lets a later `create_offer` overwrite a
terminal offer — see the counterexample.) -/
theorem offer_status_transitions {s : MState} (hs : ReachableI s)
    {a : Action} {s' : MState} (hstep : apply s a = some s')
    {oid : Nat} {o o' : Offer}
    (ho : assocGet s.offers oid = some o)
    (ho' : assocGet s'.offers oid = some o') :
    OfferTransition s a oid o.status o'.status ∧
    ((o.status = OfferStatus.Accepted ∨ o.status = OfferStatus.Rejected ∨
      o.status = OfferStatus.Cancelled) → o'.status = o.status) := by
  obtain ⟨hcfg, hkb, hcb, hcs⟩ := invI_reachableI hs
  have main : OfferTransition s a oid o.status o'.status := by
    cases a with
    | init_market ad fr fb mn mx =>
      obtain ⟨hnone, -, -⟩ := init_market_eq_some hstep
      rw [hnone] at hcfg
      cases hcfg
    | update_config fr fb mn mx =>
      obtain ⟨cfg, cfg', -, hs'⟩ := update_config_eq_some hstep
      subst hs'
      have h1 : assocGet s.offers oid = some o' := ho'
      rw [ho] at h1
      cases h1
      left
      rfl
    | create_listing seller asset pt price creator roy owner now =>
      simp only [apply] at hstep
      obtain ⟨r, hr, hs'⟩ := Option.map_eq_some'.mp hstep
      obtain ⟨-, -, -, hr2⟩ := create_listing_eq_some hr
      subst hr2
      subst hs'
      have h1 : assocGet s.offers oid = some o' := ho'
      rw [ho] at h1
      cases h1
      left
      rfl
    | buy buyer lid =>
      obtain ⟨listing, config, sa, fa, ra, -, -, -, -, -, hs'⟩ :=
        buy_eq_some hstep
      subst hs'
      have h1 : assocGet s.offers oid = some o' := ho'
      rw [ho] at h1
      cases h1
      left
      rfl
    | create_offer buyer lid price e now =>
      simp only [apply] at hstep
      obtain ⟨r, hr, hs'⟩ := Option.map_eq_some'.mp hstep
      obtain ⟨listing, -, -, -, -, -, hr2⟩ := create_offer_eq_some hr
      subst hr2
      subst hs'
      have hne : s.offer_count + 1 ≠ oid := by
        have := hkb oid o ho
        omega
      have h1 : assocGet (assocSet s.offers (s.offer_count + 1)
          { offer_id := s.offer_count + 1, listing_id := lid, buyer := buyer,
            price := price, status := OfferStatus.Open, created_time := now,
            expiration_time := e }) oid = some o' := ho'
      rw [assocGet_assocSet_other _ _ hne] at h1
      rw [ho] at h1
      cases h1
      left
      rfl
    | reject_offer seller k0 =>
      obtain ⟨of, listing, ho0, hopen, -, -, hs'⟩ :=
        reject_offer_eq_some hstep
      subst hs'
      have h1 : assocGet (assocSet s.offers k0
          ({ of with status := OfferStatus.Rejected })) oid = some o' := ho'
      rw [assocGet_assocSet] at h1
      by_cases hk : k0 = oid
      · rw [if_pos hk] at h1
        cases h1
        subst hk
        rw [ho] at ho0
        cases ho0
        exact Or.inr (Or.inl ⟨hopen, Or.inr (Or.inl rfl)⟩)
      · rw [if_neg hk] at h1
        rw [ho] at h1
        cases h1
        left
        rfl
    | cancel_offer buyer k0 =>
      obtain ⟨of, listing, ho0, -, hopen, -, hs'⟩ :=
        cancel_offer_eq_some hstep
      subst hs'
      have h1 : assocGet (assocSet s.offers k0
          ({ of with status := OfferStatus.Cancelled })) oid = some o' := ho'
      rw [assocGet_assocSet] at h1
      by_cases hk : k0 = oid
      · rw [if_pos hk] at h1
        cases h1
        subst hk
        rw [ho] at ho0
        cases ho0
        exact Or.inr (Or.inl ⟨hopen, Or.inr (Or.inr (Or.inl rfl))⟩)
      · rw [if_neg hk] at h1
        rw [ho] at h1
        cases h1
        left
        rfl
    | create_counter_offer seller k0 price e now =>
      simp only [apply] at hstep
      obtain ⟨r, hr, hs'⟩ := Option.map_eq_some'.mp hstep
      obtain ⟨of, listing, ho0, hopen, -, -, -, -, hr2⟩ :=
        create_counter_offer_eq_some hr
      subst hr2
      subst hs'
      have h1 : assocGet (assocSet s.offers k0
          ({ of with status := OfferStatus.Countered })) oid = some o' := ho'
      rw [assocGet_assocSet] at h1
      by_cases hk : k0 = oid
      · rw [if_pos hk] at h1
        cases h1
        subst hk
        rw [ho] at ho0
        cases ho0
        exact Or.inr (Or.inl ⟨hopen, Or.inr (Or.inr (Or.inr rfl))⟩)
      · rw [if_neg hk] at h1
        rw [ho] at h1
        cases h1
        left
        rfl
    | accept_offer seller k0 now =>
      obtain ⟨of, listing, config, sa, fa, ra, s3, ho0, hopen, -, -, -, -,
        -, -, hr3, hs'⟩ := accept_offer_eq_some hstep
      obtain ⟨listing2, -, hfold⟩ := refund_listing_offers_eq_some hr3
      subst hs'
      subst hfold
      set base := remove_from_active_listings
        (accept_pre s seller k0 of listing config sa fa ra)
        of.listing_id with hbase
      set oids := (assocGet base.offers_by_listing of.listing_id).getD []
        with hoids
      have hbasefacts : ∀ (q : Nat) (ob : Offer),
          assocGet base.offers q = some ob →
          (q = k0 ∧ ob = { of with status := OfferStatus.Accepted }) ∨
          (q ≠ k0 ∧ assocGet s.offers q = some ob) := by
        intro q ob hq
        have hq' : assocGet (assocSet s.offers k0
            ({ of with status := OfferStatus.Accepted })) q = some ob := hq
        rw [assocGet_assocSet] at hq'
        by_cases hkn : k0 = q
        · rw [if_pos hkn] at hq'
          cases hq'
          exact Or.inl ⟨hkn.symm, rfl⟩
        · rw [if_neg hkn] at hq'
          exact Or.inr ⟨fun hh => hkn hh.symm, hq'⟩
      have hk2 : assocGet (List.foldl (refund_step listing2.payment_token
          (fun oid' => oid' == k0)) base oids).offers oid = some o' := ho'
      rcases refund_fold_offers listing2.payment_token
          (fun oid' => oid' == k0) oids base oid with heq | ⟨o1, ho1, hopen1, hfl⟩
      · rw [heq] at hk2
        rcases hbasefacts oid o' hk2 with ⟨hqe, hacc⟩ | ⟨-, hq⟩
        · subst hacc
          subst hqe
          rw [ho] at ho0
          cases ho0
          exact Or.inr (Or.inl ⟨hopen, Or.inl rfl⟩)
        · rw [ho] at hq
          cases hq
          left
          rfl
      · rcases hbasefacts oid o1 ho1 with ⟨-, hacc⟩ | ⟨-, hq⟩
        · subst hacc
          cases hopen1
        · rw [ho] at hq
          cases hq
          rw [hfl] at hk2
          cases hk2
          exact Or.inr (Or.inl ⟨hopen1, Or.inr (Or.inr (Or.inl rfl))⟩)
    | accept_counter_offer buyer cid now =>
      obtain ⟨counter, of, listing, config, sa, fa, ra, s3, hco, ho0, -, -,
        -, -, -, hr3, hs'⟩ := accept_counter_offer_eq_some hstep
      obtain ⟨listing2, -, hfold⟩ := refund_listing_offers_eq_some hr3
      subst hs'
      subst hfold
      set base := remove_from_active_listings
        (accept_counter_pre s buyer counter of listing config sa fa ra)
        of.listing_id with hbase
      set oids := (assocGet base.offers_by_listing of.listing_id).getD []
        with hoids
      have hbasefacts : ∀ (q : Nat) (ob : Offer),
          assocGet base.offers q = some ob →
          (q = counter.offer_id ∧
            ob = { of with status := OfferStatus.Accepted }) ∨
          (q ≠ counter.offer_id ∧ assocGet s.offers q = some ob) := by
        intro q ob hq
        have hq' : assocGet (assocSet s.offers counter.offer_id
            ({ of with status := OfferStatus.Accepted })) q = some ob := hq
        rw [assocGet_assocSet] at hq'
        by_cases hkn : counter.offer_id = q
        · rw [if_pos hkn] at hq'
          cases hq'
          exact Or.inl ⟨hkn.symm, rfl⟩
        · rw [if_neg hkn] at hq'
          exact Or.inr ⟨fun hh => hkn hh.symm, hq'⟩
      have hk2 : assocGet (List.foldl (refund_step listing2.payment_token
          (fun oid' => oid' == counter.offer_id)) base oids).offers oid =
          some o' := ho'
      rcases refund_fold_offers listing2.payment_token
          (fun oid' => oid' == counter.offer_id) oids base oid with
        heq | ⟨o1, ho1, hopen1, hfl⟩
      · rw [heq] at hk2
        rcases hbasefacts oid o' hk2 with ⟨hqe, hacc⟩ | ⟨-, hq⟩
        · subst hacc
          have ho0' : assocGet s.offers oid = some of := by
            rw [hqe]
            exact ho0
          rw [ho] at ho0'
          cases ho0'
          rcases hcs (cid, counter) (assocGet_mem hco) o ho0 with hst | hst
          · exact Or.inr (Or.inr ⟨hst, rfl,
              buyer, cid, now, counter, rfl, hco, hqe.symm⟩)
          · left
            exact hst.symm
        · rw [ho] at hq
          cases hq
          left
          rfl
      · rcases hbasefacts oid o1 ho1 with ⟨-, hacc⟩ | ⟨-, hq⟩
        · subst hacc
          cases hopen1
        · rw [ho] at hq
          cases hq
          rw [hfl] at hk2
          cases hk2
          exact Or.inr (Or.inl ⟨hopen1, Or.inr (Or.inr (Or.inl rfl))⟩)
    | cancel_listing seller lid =>
      obtain ⟨listing, s2, -, -, -, hr2, hs'⟩ := cancel_listing_eq_some hstep
      obtain ⟨listing2, -, hfold⟩ := refund_listing_offers_eq_some hr2
      subst hs'
      subst hfold
      set base := cancel_listing_pre s seller listing with hbase
      set oids := (assocGet base.offers_by_listing lid).getD [] with hoids
      have hk2 : assocGet (List.foldl (refund_step listing2.payment_token
          (fun _ => false)) base oids).offers oid = some o' := ho'
      rcases refund_fold_offers listing2.payment_token (fun _ => false)
          oids base oid with heq | ⟨o1, ho1, hopen1, hfl⟩
      · rw [heq] at hk2
        have hq : assocGet s.offers oid = some o' := hk2
        rw [ho] at hq
        cases hq
        left
        rfl
      · have hq : assocGet s.offers oid = some o1 := ho1
        rw [ho] at hq
        cases hq
        rw [hfl] at hk2
        cases hk2
        exact Or.inr (Or.inl ⟨hopen1, Or.inr (Or.inr (Or.inl rfl))⟩)
  refine ⟨main, ?_⟩
  intro hterm
  rcases main with h | ⟨hopen, -⟩ | ⟨hctr, -, -⟩
  · exact h
  · rcases hterm with h1 | h1 | h1 <;> rw [h1] at hopen <;> cases hopen
  · rcases hterm with h1 | h1 | h1 <;> rw [h1] at hctr <;> cases hctr

theorem reachableI_of_trace :
    ∀ (l : List Action) (s s' : MState), ReachableI s →
      apply_trace s l = some s' → ReachableI s' := by
  intro l
  induction l with
  | nil =>
    intro s s' hs h
    unfold apply_trace at h
    cases h
    exact hs
  | cons a rest ih =>
    intro s s' hs h
    unfold apply_trace at h
    cases ha : apply s a with
    | none => rw [ha] at h; cases h
    | some s1 =>
      rw [ha] at h
      exact ih s1 s' (ReachableI.step hs ha) h

/-- The state right after a successful `initialize` with admin 1, fee
recipient 2 and a 2.5% fee. -/
def init1_state : MState :=
  (init_market empty_state 1 2 250 0 0).getD empty_state

/-- The first offer living in `two_offer_state`: buyer 4's open 500 offer on
listing 1. -/
def w2_offer : Offer :=
  { offer_id := 1, listing_id := 1, buyer := 4, price := 500,
    status := OfferStatus.Open, created_time := 0, expiration_time := none }

/-- `two_offer_state` after seller 3 rejects offer 1. -/
def rejected_state : MState :=
  (apply two_offer_state (Action.reject_offer 3 1)).getD empty_state

/-- C2 witness: on the initialize-first state with two open offers, seller
3's rejection of offer 1 moves its status Open → Rejected, an allowed
transition. -/
theorem offer_status_transitions_witness :
    OfferTransition two_offer_state (Action.reject_offer 3 1) 1
      w2_offer.status
      ({ w2_offer with status := OfferStatus.Rejected } : Offer).status ∧
    ((w2_offer.status = OfferStatus.Accepted ∨
      w2_offer.status = OfferStatus.Rejected ∨
      w2_offer.status = OfferStatus.Cancelled) →
      ({ w2_offer with status := OfferStatus.Rejected } : Offer).status =
        w2_offer.status) :=
  @offer_status_transitions two_offer_state
    (reachableI_of_trace
      [Action.create_listing 3 sampleAsset 60 1000 (some 9) 500 3 0,
       Action.create_offer 4 1 500 none 0,
       Action.create_offer 6 1 600 none 0]
      init1_state two_offer_state
      (@ReachableI.base 1 2 250 0 0 init1_state (by decide)) (by decide))
    (Action.reject_offer 3 1) rejected_state (by decide)
    1 w2_offer ({ w2_offer with status := OfferStatus.Rejected })
    (by decide) (by decide)

/-- C1: evaluation of `accept_counter_offer` on the spec's own scenario
(offer 800, counter 900). The refund of 800 and the difference charge of 100
are both emitted and the payout legs are computed on 900, but the buyer's
lifetime net payment (escrow 800, refund 800, charge 100) is 100 — not the
900 the claim requires — and the contract address ends 800 short. -/
theorem accept_counter_offer_net_payment_bug :
    ((apply_trace empty_state
      [Action.init_market 1 2 0 0 0,
       Action.create_listing 3 sampleAsset 60 1000 none 0 3 0,
       Action.create_offer 4 1 800 none 0,
       Action.create_counter_offer 3 1 900 none 0,
       Action.accept_counter_offer 4 1 0]).map (fun s =>
        (s.token_transfers, net_in 4 s.token_transfers,
         net_in contract_addr s.token_transfers,
         (assocGet s.offers 1).map Offer.status,
         (assocGet s.listings 1).map Listing.status)) =
      some ([{ token := 60, src := 4, dst := 0, amount := 800 },
             { token := 60, src := 0, dst := 4, amount := 800 },
             { token := 60, src := 4, dst := 0, amount := 100 },
             { token := 60, src := 0, dst := 3, amount := 900 }],
            -100, -800, some OfferStatus.Accepted, some ListingStatus.Sold)) ∧
    ((-100 : Int) ≠ -900) := by
  exact ⟨by decide, by decide⟩

/-- C3: `accept_counter_offer` omits the `ListingNotActive` check that `buy`,
`accept_offer` and `cancel_listing` all perform. After the seller cancels the
listing (the Countered offer is not refunded by the bulk refund, so the
counter survives), the buyer can still accept the counter-offer and the
Cancelled listing's status flips to Sold. -/
theorem accept_counter_offer_revives_cancelled_listing :
    ((apply_trace empty_state
      [Action.init_market 1 2 0 0 0,
       Action.create_listing 3 sampleAsset 60 1000 none 0 3 0,
       Action.create_offer 4 1 800 none 0,
       Action.create_counter_offer 3 1 900 none 0,
       Action.cancel_listing 3 1]).map (fun s =>
        (assocGet s.listings 1).map Listing.status) =
      some (some ListingStatus.Cancelled)) ∧
    ((apply_trace empty_state
      [Action.init_market 1 2 0 0 0,
       Action.create_listing 3 sampleAsset 60 1000 none 0 3 0,
       Action.create_offer 4 1 800 none 0,
       Action.create_counter_offer 3 1 900 none 0,
       Action.cancel_listing 3 1,
       Action.accept_counter_offer 4 1 0]).map (fun s =>
        (assocGet s.listings 1).map Listing.status) =
      some (some ListingStatus.Sold)) := by
  exact ⟨by decide, by decide⟩

/-- C5 counterexample: `buy` never touches the offers on the listing it
sells, so after a direct `buy` the listing is Sold while an offer on it is
still Open — refuting "no offer on a Sold listing has status Open". -/
theorem open_offer_survives_buy :
    (apply_trace empty_state
      [Action.init_market 1 2 0 0 0,
       Action.create_listing 3 sampleAsset 60 1000 none 0 3 0,
       Action.create_offer 4 1 500 none 0,
       Action.buy 5 1]).map (fun s =>
        ((assocGet s.listings 1).map Listing.status,
         (assocGet s.offers 1).map Offer.status)) =
      some (some ListingStatus.Sold, some OfferStatus.Open) := by
  decide

/-- C9 counterexample: in `accept_counter_offer` with no recorded creator the
royalty amount (100 on the counter price 500) is *not* what remains at the
contract address: because the full original escrow (1000) is refunded while
only a positive difference would be charged, the contract's lifetime net
intake is -400, not 100. -/
theorem royalty_not_retained_on_counter_path :
    ((apply_trace empty_state
      [Action.init_market 1 2 0 0 0,
       Action.create_listing 3 sampleAsset 60 1000 none 2000 3 0,
       Action.create_offer 4 1 1000 none 0,
       Action.create_counter_offer 3 1 500 none 0,
       Action.accept_counter_offer 4 1 0]).map (fun s =>
        net_in contract_addr s.token_transfers) = some (-400)) ∧
    calculate_payouts 500 0 2000 = some (400, 0, 100) ∧
    ((-400 : Int) ≠ 100) := by
  exact ⟨by decide, by decide, by decide⟩

/-- C2 counterexample: `create_listing` and `create_offer` also work before
`initialize`, and `initialize` resets the id counters. A Rejected offer
stored under id 1 before `initialize` is then overwritten by the next
`create_offer`, so the status stored under offer id 1 moves Rejected → Open
on a reachable execution. -/
theorem offer_status_overwritten_after_counter_reset :
    ((apply_trace empty_state
      [Action.create_listing 3 sampleAsset 60 1000 none 0 3 0,
       Action.create_offer 4 1 500 none 0,
       Action.reject_offer 3 1]).map (fun s =>
        (assocGet s.offers 1).map Offer.status) =
      some (some OfferStatus.Rejected)) ∧
    ((apply_trace empty_state
      [Action.create_listing 3 sampleAsset 60 1000 none 0 3 0,
       Action.create_offer 4 1 500 none 0,
       Action.reject_offer 3 1,
       Action.init_market 1 2 0 0 0,
       Action.create_offer 5 1 600 none 0]).map (fun s =>
        (assocGet s.offers 1).map Offer.status) =
      some (some OfferStatus.Open)) := by
  exact ⟨by decide, by decide⟩

end Quest
